import Mathlib

/-!
Verification of the booking/availability subsystem of the funch-hotel-backend
repository, shallowly embedded from `src/services/bookingService.js`,
`src/services/roomsService.js` and `src/controllers/bookingController.js`.

The external Supabase store is modelled as an in-memory list of booking rows
plus a read-only room directory.  Identifiers and calendar dates are opaque
strings (in the real system they are UUID strings and ISO-8601 dates, which
are never empty, hence never JavaScript-falsy).  `uuidv4()` is modelled by a
fresh-name counter.  Timestamps (`new Date().toISOString()`) are threaded as
an explicit `now` argument.
-/

/-- JavaScript truthiness of an optional string field: `undefined`/`null` are
falsy, and so is the empty string. -/
def jsTruthyS : Option String → Bool
  | none => false
  | some s => s != ""

/-- JavaScript truthiness of an optional number field: `undefined`/`null` and
`0` are falsy. -/
def jsTruthyI : Option Int → Bool
  | none => false
  | some p => p != 0

/-- The `note || null` normalisation used when inserting booking rows:
an absent or empty-string note is stored as `null`. -/
def jsOrNullS : Option String → Option String
  | none => none
  | some s => if s == "" then none else some s

/-- `a || b` on an optional string versus a default (used for the
effective room/date computation in `updateBooking`). -/
def jsOrD : Option String → String → String
  | none, d => d
  | some s, d => if s == "" then d else s

/-- Model of `uuidv4()`: the `n`-th generated identifier.  The concrete
encoding only matters through injectivity and non-emptiness. -/
def genId (n : Nat) : String :=
  String.mk (List.replicate (n + 1) 'x')

/-- A row of the external `rooms` table, as read by the booking engine
(`select("total_rooms").eq("id", room_id)`).  `total_rooms` is a nullable
integer column. -/
structure Room where
  id : String
  total_rooms : Option Nat
  deriving Repr, DecidableEq

/-- A row of the `bookings` table, with the columns used by
`bookingService.js`; `check_in`/`check_out` are the (nullable) columns
queried by `roomsService.checkRoomAvailability`. -/
structure Booking where
  id : String
  user_id : String
  hotel_id : String
  room_id : String
  date : String
  price : Int
  note : Option String
  status : String
  create_at : Nat
  check_in : Option String
  check_out : Option String
  deriving Repr, DecidableEq

/-- The external data store: the room directory, the booking table, and the
fresh-identifier counter modelling `uuidv4`. -/
structure DB where
  rooms : List Room
  bookings : List Booking
  fresh : Nat
  deriving Repr, DecidableEq

/-- `from("rooms").select("total_rooms").eq("id", room_id).single()`. -/
def findRoom (rooms : List Room) (room_id : String) : Option Room :=
  rooms.find? (fun r => r.id == room_id)

/-- The row filter of the booking engine's availability count:
`eq("room_id", room_id).eq("date", date).eq("status", "active")`. -/
def bookingMatches (room_id date : String) (b : Booking) : Bool :=
  b.room_id == room_id && b.date == date && b.status == "active"

/-- The `neq("id", excludeBookingId)` filter, applied only when
`excludeBookingId` is truthy (`if (excludeBookingId)`). -/
def exclOk (excludeBookingId : Option String) (b : Booking) : Bool :=
  match excludeBookingId with
  | none => true
  | some e => if e == "" then true else b.id != e

/-- The active-booking count computed by
`BookingService.checkRoomAvailability`. -/
def countActive (bs : List Booking) (room_id date : String)
    (excludeBookingId : Option String) : Nat :=
  bs.countP (fun b => bookingMatches room_id date b && exclOk excludeBookingId b)

/-- The successful result shape of `BookingService.checkRoomAvailability`.
`totalRooms` is the raw nullable column value; `availableRooms` follows the
JavaScript arithmetic `totalRooms - count` where `null` coerces to `0`. -/
structure AvailResult where
  isAvailable : Bool
  totalRooms : Option Nat
  currentBookings : Nat
  availableRooms : Int
  deriving Repr, DecidableEq

/-- The error outcomes of the booking engine, as structured values carrying
the data that the thrown `Error` messages interpolate.  `bookingNotFound`
is the explicit "Booking not found" throw (via `getBookingById`), whose
message contains the substring "not found"; `updateFailed`/`cancelFailed`
are the wrapped `.single()` zero-row failures "Failed to update booking:
..." / "Failed to cancel booking: ..." whose supabase-supplied messages do
not contain that substring. -/
inductive BookingErr where
  | roomNotFound (room_id : String)
  | roomFullyBooked (date : String) (totalRooms : Option Nat) (currentBookings : Nat)
  | roomFullyBookedMulti (details : List (String × Option Nat × Nat))
  | emptyDates
  | invalidStatus
  | bookingNotFound
  | updateFailed
  | cancelFailed
  deriving Repr, DecidableEq

namespace BookingService

/-- The availability record assembled once the room row has been fetched:
`isAvailable = count < totalRooms` and `availableRooms = totalRooms - count`,
with JavaScript's `null`-to-`0` coercion in both. -/
def mkAvail (room : Room) (bs : List Booking) (room_id date : String)
    (excludeBookingId : Option String) : AvailResult :=
  let c := countActive bs room_id date excludeBookingId
  { isAvailable := decide (c < room.total_rooms.getD 0)
    totalRooms := room.total_rooms
    currentBookings := c
    availableRooms := (room.total_rooms.getD 0 : Int) - (c : Int) }

/-- `BookingService.checkRoomAvailability(room_id, date, excludeBookingId)`.
Read-only; fails only when the room row does not resolve. -/
def checkRoomAvailability (db : DB) (room_id date : String)
    (excludeBookingId : Option String) : Except BookingErr AvailResult :=
  match findRoom db.rooms room_id with
  | none => Except.error (BookingErr.roomNotFound room_id)
  | some room => Except.ok (mkAvail room db.bookings room_id date excludeBookingId)

/-- `BookingService.getBookingById(id)` (projected to the booking row). -/
def getBookingById (db : DB) (id : String) : Except BookingErr Booking :=
  match db.bookings.find? (fun b => b.id == id) with
  | none => Except.error BookingErr.bookingNotFound
  | some b => Except.ok b

/-- The row inserted by `createBooking`/`createMultipleBookings`. -/
def newBookingRow (id user_id hotel_id room_id date : String) (price : Int)
    (note : Option String) (now : Nat) : Booking :=
  { id := id, user_id := user_id, hotel_id := hotel_id, room_id := room_id
    date := date, price := price, note := jsOrNullS note, status := "active"
    create_at := now, check_in := none, check_out := none }

/-- `BookingService.createBooking`: check availability for the requested
room/date, reject with a fully-booked error when unavailable, otherwise
insert one `active` row.  On error the store is unchanged. -/
def createBooking (db : DB) (user_id hotel_id room_id date : String)
    (price : Int) (note : Option String) (now : Nat) :
    Except BookingErr Booking × DB :=
  match checkRoomAvailability db room_id date none with
  | Except.error e => (Except.error e, db)
  | Except.ok a =>
    if !a.isAvailable then
      (Except.error (BookingErr.roomFullyBooked date a.totalRooms a.currentBookings), db)
    else
      let b := newBookingRow (genId db.fresh) user_id hotel_id room_id date price note now
      (Except.ok b, { db with bookings := db.bookings ++ [b], fresh := db.fresh + 1 })

/-- The validation loop of `createMultipleBookings`: check every date in
order, abort on a check failure, and collect the unavailable dates with the
`totalRooms`/`currentBookings` figures reported for them. -/
def collectUnavail (db : DB) (room_id : String) :
    List String → Except BookingErr (List (String × Option Nat × Nat))
  | [] => Except.ok []
  | d :: rest =>
    match checkRoomAvailability db room_id d none with
    | Except.error e => Except.error e
    | Except.ok a =>
      match collectUnavail db room_id rest with
      | Except.error e => Except.error e
      | Except.ok tail =>
        Except.ok (if a.isAvailable then tail
                   else (d, a.totalRooms, a.currentBookings) :: tail)

/-- The rows built by `dates.map((date) => ({id: uuidv4(), ...}))`, with the
fresh counter advancing once per row. -/
def mkRows (f : Nat) (user_id hotel_id room_id : String) (price : Int)
    (note : Option String) (now : Nat) : List String → List Booking
  | [] => []
  | d :: rest =>
    newBookingRow (genId f) user_id hotel_id room_id d price note now ::
      mkRows (f + 1) user_id hotel_id room_id price note now rest

/-- `BookingService.createMultipleBookings`: validate every date first; if
any is unavailable fail with the full conflict list and insert nothing;
otherwise insert one `active` row per date. -/
def createMultipleBookings (db : DB) (user_id hotel_id room_id : String)
    (dates : List String) (price : Int) (note : Option String) (now : Nat) :
    Except BookingErr (List Booking) × DB :=
  if dates.isEmpty then (Except.error BookingErr.emptyDates, db)
  else
    match collectUnavail db room_id dates with
    | Except.error e => (Except.error e, db)
    | Except.ok unavail =>
      if unavail.isEmpty then
        let rows := mkRows db.fresh user_id hotel_id room_id price note now dates
        (Except.ok rows,
         { db with bookings := db.bookings ++ rows, fresh := db.fresh + dates.length })
      else (Except.error (BookingErr.roomFullyBookedMulti unavail), db)

/-- The partial-update payload of `updateBooking` after the
`undefined`-field cleanup (`cleanData`); `note` distinguishes an absent
field from an explicit `null`. -/
structure UpdateFields where
  price : Option Int
  note : Option (Option String)
  status : Option String
  room_id : Option String
  date : Option String
  deriving Repr, DecidableEq

/-- The status guard of `updateBooking`:
`cleanData.status && !["active","cancel"].includes(cleanData.status)`. -/
def statusInvalid (u : UpdateFields) : Bool :=
  jsTruthyS u.status &&
    !((u.status.getD "") == "active" || (u.status.getD "") == "cancel")

/-- Applying the partial update to a row (the supabase
`update(cleanData)` sets exactly the supplied columns). -/
def applyFields (u : UpdateFields) (b : Booking) : Booking :=
  { b with
    price := u.price.getD b.price
    note := match u.note with
            | some n => n
            | none => b.note
    status := u.status.getD b.status
    room_id := u.room_id.getD b.room_id
    date := u.date.getD b.date }

/-- The per-row effect of `update(cleanData).eq("id", id)`: rows with the
matching id receive the supplied fields, all others are untouched. -/
def updateRow (id : String) (u : UpdateFields) (b : Booking) : Booking :=
  if b.id == id then applyFields u b else b

/-- The final `update(cleanData).eq("id", id).select().single()` step:
when no row has the identifier it fails with the wrapped zero-row error
("Failed to update booking: ..."), otherwise it rewrites the row and
returns it. -/
def applyUpdate (db : DB) (id : String) (u : UpdateFields) :
    Except BookingErr Booking × DB :=
  match db.bookings.find? (fun b => b.id == id) with
  | none => (Except.error BookingErr.updateFailed, db)
  | some cur =>
    (Except.ok (applyFields u cur),
     { db with bookings := db.bookings.map (updateRow id u) })

/-- `BookingService.updateBooking(id, updateData)`: validate the status
value; when `room_id` or `date` is supplied (truthy), fetch the current
booking, recompute the effective room/date, and re-check availability with
the booking itself excluded, failing fully-booked when unavailable;
otherwise apply the partial update directly. -/
def updateBooking (db : DB) (id : String) (u : UpdateFields) :
    Except BookingErr Booking × DB :=
  if statusInvalid u then (Except.error BookingErr.invalidStatus, db)
  else if jsTruthyS u.room_id || jsTruthyS u.date then
    match getBookingById db id with
    | Except.error e => (Except.error e, db)
    | Except.ok cur =>
      match checkRoomAvailability db (jsOrD u.room_id cur.room_id)
          (jsOrD u.date cur.date) (some id) with
      | Except.error e => (Except.error e, db)
      | Except.ok a =>
        if !a.isAvailable then
          (Except.error (BookingErr.roomFullyBooked (jsOrD u.date cur.date)
            a.totalRooms a.currentBookings), db)
        else applyUpdate db id u
  else applyUpdate db id u

/-- The per-row effect of `update({status: "cancel"}).eq("id", id)`. -/
def cancelRow (id : String) (b : Booking) : Booking :=
  if b.id == id then { b with status := "cancel" } else b

/-- `BookingService.cancelBooking(id)`: soft delete via
`update({status: "cancel"}).eq("id", id).single()`; when the row is absent
it fails with the wrapped zero-row error ("Failed to cancel booking: ..."),
otherwise it sets the status and returns the updated row. -/
def cancelBooking (db : DB) (id : String) : Except BookingErr Booking × DB :=
  match db.bookings.find? (fun b => b.id == id) with
  | none => (Except.error BookingErr.cancelFailed, db)
  | some cur =>
    (Except.ok { cur with status := "cancel" },
     { db with bookings := db.bookings.map (cancelRow id) })

end BookingService

namespace RoomsService

/-- The booking count of `RoomsService.checkRoomAvailability`
(`roomsService.js`): rows of the same room whose status is `confirmed` or
`checked_in` and whose `check_in`/`check_out` range overlaps the queried
range (`or(and(check_in.lte.CO, check_out.gte.CI))`; SQL comparisons
against `null` columns do not match). -/
def bookedCount (bs : List Booking) (room_id check_in_date check_out_date : String) : Nat :=
  bs.countP (fun b =>
    b.room_id == room_id &&
    (b.status == "confirmed" || b.status == "checked_in") &&
    (match b.check_in, b.check_out with
     | some ci, some co => decide (ci ≤ check_out_date) && decide (check_in_date ≤ co)
     | _, _ => false))

/-- Successful result of `RoomsService.checkRoomAvailability`, projected to
its numeric fields: `availableRooms` is clamped by `Math.max(0, ...)` while
`isAvailable` uses the unclamped difference. -/
structure RoomsAvail where
  totalRooms : Nat
  bookedRooms : Nat
  availableRooms : Nat
  isAvailable : Bool
  deriving Repr, DecidableEq

/-- Error outcomes of `RoomsService.checkRoomAvailability`:
`totalNotSet` is the explicit "Room total count not set - cannot check
availability" failure raised when `total_rooms` is null or zero. -/
inductive RoomsErr where
  | roomNotFound
  | totalNotSet
  deriving Repr, DecidableEq

/-- `RoomsService.checkRoomAvailability(roomId, checkInDate, checkOutDate)`:
unlike the booking engine's check, it refuses to answer when the room's
`total_rooms` is unset or zero (`!room.total_rooms || room.total_rooms === 0`). -/
def checkRoomAvailability (db : DB) (room_id check_in_date check_out_date : String) :
    Except RoomsErr RoomsAvail :=
  match findRoom db.rooms room_id with
  | none => Except.error RoomsErr.roomNotFound
  | some room =>
    match room.total_rooms with
    | none => Except.error RoomsErr.totalNotSet
    | some t =>
      if t == 0 then Except.error RoomsErr.totalNotSet
      else
        let booked := bookedCount db.bookings room_id check_in_date check_out_date
        Except.ok
          { totalRooms := t
            bookedRooms := booked
            availableRooms := ((t : Int) - (booked : Int)).toNat
            isAvailable := decide ((booked : Int) < (t : Int)) }

end RoomsService

/-! ## Sequential executions of the engine

`Op` is one engine call with its arguments; `run` executes a sequence
against the store, which is exactly how the Node process serialises the
awaited Supabase calls when requests do not interleave. -/

/-- One call into the booking engine. -/
inductive Op where
  | create (user_id hotel_id room_id date : String) (price : Int)
      (note : Option String) (now : Nat)
  | createMulti (user_id hotel_id room_id : String) (dates : List String)
      (price : Int) (note : Option String) (now : Nat)
  | update (id : String) (u : BookingService.UpdateFields)
  | cancel (id : String)
  deriving Repr

/-- Execute one engine call, keeping only the store. -/
def stepOp (db : DB) : Op → DB
  | Op.create u h r d p n now => (BookingService.createBooking db u h r d p n now).2
  | Op.createMulti u h r ds p n now =>
      (BookingService.createMultipleBookings db u h r ds p n now).2
  | Op.update id u => (BookingService.updateBooking db id u).2
  | Op.cancel id => (BookingService.cancelBooking db id).2

/-- Execute a sequence of engine calls. -/
def run (db : DB) (ops : List Op) : DB :=
  ops.foldl stepOp db

/-- Store well-formedness maintained by the engine: room identifiers are
distinct (primary key), booking identifiers are distinct, and every booking
identifier was produced by an earlier draw of the id generator. -/
def StoreWF (db : DB) : Prop :=
  (db.rooms.map Room.id).Nodup ∧
  (db.bookings.map Booking.id).Nodup ∧
  ∀ b ∈ db.bookings, ∃ k, k < db.fresh ∧ b.id = genId k

/-- The capacity invariant: no configured room is ever over-booked on any
date. -/
def CapacityInv (db : DB) : Prop :=
  ∀ room ∈ db.rooms, ∀ t, room.total_rooms = some t →
    ∀ d, countActive db.bookings room.id d none ≤ t

/-- The preconditions §4 of the spec places on individual engine calls:
multi-date requests carry pairwise-distinct dates, supplied update fields
are well-formed (non-empty) strings — plus the amendment forced by the
reactivation counterexample: no update sets the status to `active`. -/
def OkOp : Op → Prop
  | Op.create _ _ _ _ _ _ _ => True
  | Op.createMulti _ _ _ ds _ _ _ => ds.Nodup
  | Op.update _ u =>
      u.status ≠ some "active" ∧
      (∀ s, u.room_id = some s → s ≠ "") ∧
      (∀ s, u.date = some s → s ≠ "")
  | Op.cancel _ => True

/-! ## HTTP boundary (`bookingController.js`)

Identifier validation mirrors the controller's UUID regular expression;
date validation models `new Date(str)` on the ISO-8601 calendar dates the
API contract prescribes (day granularity, encoded monotonically), with
"today" passed explicitly. -/

/-- A hexadecimal digit, either case (the regex classes `[0-9a-f]` with the
`i` flag). -/
def isHexChar (c : Char) : Bool :=
  c.isDigit || ('a' ≤ c && c ≤ 'f') || ('A' ≤ c && c ≤ 'F')

/-- Split a character list at every occurrence of the separator (the
fields between consecutive separators, like `String.split`). -/
def chSplit (c : Char) : List Char → List (List Char)
  | [] => [[]]
  | a :: rest =>
    match chSplit c rest with
    | [] => [[]]
    | h :: t => if a == c then [] :: h :: t else (a :: h) :: t

/-- The controller's UUID shape test
`/^[0-9a-f]{8}-[0-9a-f]{4}-[0-9a-f]{4}-[0-9a-f]{4}-[0-9a-f]{12}$/i`. -/
def isValidUuid (s : String) : Bool :=
  match chSplit '-' s.data with
  | [a, b, c, d, e] =>
    a.length == 8 && b.length == 4 && c.length == 4 && d.length == 4 &&
    e.length == 12 && a.all isHexChar && b.all isHexChar &&
    c.all isHexChar && d.all isHexChar && e.all isHexChar
  | _ => false

/-- Gregorian leap-year rule. -/
def isLeapYear (y : Nat) : Bool :=
  (y % 4 == 0 && y % 100 != 0) || y % 400 == 0

/-- Days in a month. -/
def daysInMonth (y m : Nat) : Nat :=
  if m == 2 then (if isLeapYear y then 29 else 28)
  else if m == 4 || m == 6 || m == 9 || m == 11 then 30
  else 31

/-- The numeric value of a non-empty all-digit character group
(`none` otherwise). -/
def digitsVal (cs : List Char) : Option Nat :=
  if cs.isEmpty then none
  else
    cs.foldl
      (fun acc c =>
        match acc with
        | none => none
        | some n => if c.isDigit then some (n * 10 + (c.toNat - 48)) else none)
      (some 0)

/-- Model of `new Date(str)` on an ISO-8601 `YYYY-MM-DD` string: `none` is
an invalid date (`NaN` timestamp), otherwise a day index that is monotone
in the calendar date. -/
def parseDate (s : String) : Option Int :=
  match chSplit '-' s.data with
  | [ys, ms, ds] =>
    match digitsVal ys, digitsVal ms, digitsVal ds with
    | some y, some m, some d =>
      if ys.length == 4 && ms.length == 2 && ds.length == 2 &&
         1 ≤ m && m ≤ 12 && 1 ≤ d && d ≤ daysInMonth y m then
        some ((y * 372 + (m - 1) * 31 + (d - 1) : Nat) : Int)
      else none
    | _, _, _ => none
  | _ => none

/-- The JSON body of `POST /api/booking` as destructured by
`BookingController.createBooking`; absent JSON members are `none`. -/
structure CreateBody where
  user_id : Option String
  hotel_id : Option String
  room_id : Option String
  date : Option String
  dates : Option (List String)
  price : Option Int
  note : Option String
  deriving Repr, DecidableEq

/-- The JSON body of `PUT /api/booking/:id`; for `note`, an explicit JSON
`null` (`some none`) is distinguished from an absent member (`none`). -/
structure UpdateBody where
  price : Option Int
  note : Option (Option String)
  status : Option String
  room_id : Option String
  date : Option String
  deriving Repr, DecidableEq

/-- The controller responses relevant to the booking endpooints, keyed by
HTTP status: 400 bad request, 400 validation list, 201 created, 200 ok,
409 conflict, 404 not found, 500 internal. -/
inductive CtrlResp where
  | badRequest (message : String)
  | validationFailed (errors : List String)
  | createdSingle (b : Booking)
  | createdMulti (bs : List Booking) (count : Nat) (dates : List String)
  | okData (b : Booking)
  | conflict (e : BookingErr)
  | notFoundResp (e : BookingErr)
  | serverErr (e : BookingErr)
  deriving Repr, DecidableEq

/-- `result.error.includes("fully booked")` on the engine's error values:
exactly the fully-booked errors carry that phrase. -/
def errIsFullyBooked : BookingErr → Bool
  | BookingErr.roomFullyBooked _ _ _ => true
  | BookingErr.roomFullyBookedMulti _ => true
  | _ => false

/-- `result.error.includes("not found")` on the engine's error values:
only "Room not found: ..." and the explicit "Booking not found" carry the
substring; the wrapped `.single()` zero-row messages
(`updateFailed`/`cancelFailed`) do not. -/
def errIsNotFound : BookingErr → Bool
  | BookingErr.roomNotFound _ => true
  | BookingErr.bookingNotFound => true
  | _ => false

namespace BookingController

/-- `dates && Array.isArray(dates) && dates.length > 0`. -/
def isMultipleDates (body : CreateBody) : Bool :=
  match body.dates with
  | some l => decide (0 < l.length)
  | none => false

/-- `date && !isMultipleDates`. -/
def isSingleDate (body : CreateBody) : Bool :=
  jsTruthyS body.date && !isMultipleDates body

/-- The two pushes of the single-date block: an unparseable date gets the
"valid date" message (and `NaN < today` is false, so never the "past"
message); a parseable past date gets the "past" message. -/
def singleDateErrors (date : String) (today : Int) : List String :=
  (if (parseDate date).isNone then ["date must be valid date"] else []) ++
  (match parseDate date with
   | some v => if v < today then ["date cannot be in the past"] else []
   | none => [])

/-- The `dates.forEach((dateStr, index) => ...)` messages, indexed. -/
def dateIndexErrors (i : Nat) (today : Int) : List String → List String
  | [] => []
  | d :: rest =>
    (match parseDate d with
     | none => ["dates[" ++ toString i ++ "] must be valid date"]
     | some v =>
       if v < today then ["dates[" ++ toString i ++ "] cannot be in the past"] else []) ++
    dateIndexErrors (i + 1) today rest

/-- `[...new Set(dates)].length !== dates.length`. -/
def hasDuplicateDates (l : List String) : Bool :=
  l.dedup.length != l.length

/-- The multi-date block: the 30-date cap, the per-index date checks, and
the duplicate check, in push order. -/
def multiDateErrors (dates : List String) (today : Int) : List String :=
  (if decide (30 < dates.length) then ["maximum 30 dates allowed per booking"] else []) ++
  dateIndexErrors 0 today dates ++
  (if hasDuplicateDates dates then ["duplicate dates are not allowed"] else [])

/-- The `errors` array built by `BookingController.createBooking`, in push
order: required fields, price, UUID shapes, then the date block for the
single- or multi-date variant. -/
def createErrors (body : CreateBody) (today : Int) : List String :=
  (if !jsTruthyS body.user_id then ["user_id is required"] else []) ++
  (if !jsTruthyS body.hotel_id then ["hotel_id is required"] else []) ++
  (if !jsTruthyS body.room_id then ["room_id is required"] else []) ++
  (if !jsTruthyI body.price || decide (body.price.getD 0 ≤ 0) then
     ["price must be greater than 0"] else []) ++
  (if jsTruthyS body.user_id && !isValidUuid (body.user_id.getD "") then
     ["user_id must be valid UUID"] else []) ++
  (if jsTruthyS body.hotel_id && !isValidUuid (body.hotel_id.getD "") then
     ["hotel_id must be valid UUID"] else []) ++
  (if jsTruthyS body.room_id && !isValidUuid (body.room_id.getD "") then
     ["room_id must be valid UUID"] else []) ++
  (if isSingleDate body then singleDateErrors (body.date.getD "") today else []) ++
  (if isMultipleDates body then multiDateErrors (body.dates.getD []) today else [])

/-- `BookingController.createBooking`: shape check, validation, then the
engine call; engine failures map to 409 when the message says fully booked,
500 otherwise. -/
def createBooking (db : DB) (today : Int) (now : Nat) (body : CreateBody) :
    CtrlResp × DB :=
  if !isSingleDate body && !isMultipleDates body then
    (CtrlResp.badRequest "Either date or dates must be provided", db)
  else
    let errors := createErrors body today
    if 0 < errors.length then (CtrlResp.validationFailed errors, db)
    else if isSingleDate body then
      match BookingService.createBooking db (body.user_id.getD "")
          (body.hotel_id.getD "") (body.room_id.getD "") (body.date.getD "")
          (body.price.getD 0) body.note now with
      | (Except.error e, db') =>
        ((if errIsFullyBooked e then CtrlResp.conflict e else CtrlResp.serverErr e), db')
      | (Except.ok b, db') => (CtrlResp.createdSingle b, db')
    else
      match BookingService.createMultipleBookings db (body.user_id.getD "")
          (body.hotel_id.getD "") (body.room_id.getD "") (body.dates.getD [])
          (body.price.getD 0) body.note now with
      | (Except.error e, db') =>
        ((if errIsFullyBooked e then CtrlResp.conflict e else CtrlResp.serverErr e), db')
      | (Except.ok bs, db') =>
        (CtrlResp.createdMulti bs bs.length (body.dates.getD []), db')

/-- The `errors` array of `BookingController.updateBooking`, in push order. -/
def updateErrors (body : UpdateBody) (today : Int) : List String :=
  (if body.price.isSome && decide (body.price.getD 0 ≤ 0) then
     ["price must be greater than 0"] else []) ++
  (if body.status.isSome &&
      !((body.status.getD "") == "active" || (body.status.getD "") == "cancel") then
     ["status must be either \"active\" or \"cancel\""] else []) ++
  (if body.room_id.isSome && !isValidUuid (body.room_id.getD "") then
     ["room_id must be valid UUID"] else []) ++
  (if body.date.isSome then singleDateErrors (body.date.getD "") today else [])

/-- Whether the update body supplies anything
(`Object.keys(updateData).length === 0` guard). -/
def hasUpdateFields (body : UpdateBody) : Bool :=
  body.price.isSome || body.note.isSome || body.status.isSome ||
  body.room_id.isSome || body.date.isSome

/-- The update payload handed to the service. -/
def toUpdateFields (body : UpdateBody) : BookingService.UpdateFields :=
  { price := body.price, note := body.note, status := body.status
    room_id := body.room_id, date := body.date }

/-- `BookingController.updateBooking`: id-shape check, field validation,
empty-update guard, then the engine call with not-found/fully-booked
response mapping. -/
def updateBooking (db : DB) (today : Int) (id : String) (body : UpdateBody) :
    CtrlResp × DB :=
  if !isValidUuid id then (CtrlResp.badRequest "Invalid booking ID format", db)
  else
    let errors := updateErrors body today
    if 0 < errors.length then (CtrlResp.validationFailed errors, db)
    else if !hasUpdateFields body then (CtrlResp.badRequest "No fields to update", db)
    else
      match BookingService.updateBooking db id (toUpdateFields body) with
      | (Except.error e, db') =>
        ((if errIsNotFound e then CtrlResp.notFoundResp e
          else if errIsFullyBooked e then CtrlResp.conflict e
          else CtrlResp.serverErr e), db')
      | (Except.ok b, db') => (CtrlResp.okData b, db')

/-- `BookingController.cancelBooking`: id-shape check, then the engine call
with not-found response mapping. -/
def cancelBooking (db : DB) (id : String) : CtrlResp × DB :=
  if !isValidUuid id then (CtrlResp.badRequest "Invalid booking ID format", db)
  else
    match BookingService.cancelBooking db id with
    | (Except.error e, db') =>
      ((if errIsNotFound e then CtrlResp.notFoundResp e else CtrlResp.serverErr e), db')
    | (Except.ok b, db') => (CtrlResp.okData b, db')

end BookingController

/-! ## Claim-side (spec-worded) definitions and concrete stores -/

/-- The count described by the spec for `checkAvailability`, written from
its words: bookings whose `room_id` matches, whose `date` matches exactly,
whose status is `active`, and whose id differs from `excludeBookingId` when
one is given. -/
def specActiveCount (bs : List Booking) (room_id date : String)
    (excludeBookingId : Option String) : Nat :=
  (bs.filter (fun b =>
    decide (b.room_id = room_id) && decide (b.date = date) &&
    decide (b.status = "active") &&
    (match excludeBookingId with
     | some e => decide (b.id ≠ e)
     | none => true))).length

/-- The conflict list produced by the validation phase of
`createMultipleBookings` when the room row resolves: every unavailable
date, in request order, with the `totalRooms`/`currentBookings` figures
reported for it. -/
def unavailReport (db : DB) (room : Room) (room_id : String)
    (dates : List String) : List (String × Option Nat × Nat) :=
  dates.filterMap (fun d =>
    let a := BookingService.mkAvail room db.bookings room_id d none
    if a.isAvailable then none else some (d, a.totalRooms, a.currentBookings))

/-- A one-room store: room `r0` with one physical room, no bookings. -/
def exDB1 : DB :=
  { rooms := [{ id := "r0", total_rooms := some 1 }], bookings := [], fresh := 0 }

/-- The engine-call sequence of the C1 counterexample: book the room, cancel
the booking, book the room again (capacity is now exhausted), then
reactivate the cancelled booking through `updateBooking({status})`, which
performs no availability check. -/
def exOps1 : List Op :=
  [Op.create "u0" "h0" "r0" "2025-06-01" 100 none 0,
   Op.cancel (genId 0),
   Op.create "u0" "h0" "r0" "2025-06-01" 100 none 1,
   Op.update (genId 0)
     { price := none, note := none, status := some "active",
       room_id := none, date := none }]

/-- Stores whose single room has `total_rooms = 0` / `total_rooms = null`. -/
def exDBzero : DB :=
  { rooms := [{ id := "rz", total_rooms := some 0 }], bookings := [], fresh := 0 }

/-- See `exDBzero`. -/
def exDBnull : DB :=
  { rooms := [{ id := "rn", total_rooms := none }], bookings := [], fresh := 0 }

/-- One `active` booking row for room `r8` on 2025-06-01 (no
`check_in`/`check_out` range, exactly as the engine inserts rows). -/
def exBookingA : Booking :=
  { id := "b0", user_id := "u0", hotel_id := "h0", room_id := "r8",
    date := "2025-06-01", price := 100, note := none, status := "active",
    create_at := 0, check_in := none, check_out := none }

/-- A store with one three-room entry and the single active booking
`exBookingA`. -/
def exDB8 : DB :=
  { rooms := [{ id := "r8", total_rooms := some 3 }], bookings := [exBookingA],
    fresh := 1 }

/-- A store for the cancel/idempotence witnesses: one active booking whose
id was produced by the generator. -/
def exBookingB : Booking :=
  { id := genId 0, user_id := "u0", hotel_id := "h0", room_id := "r0",
    date := "2025-06-01", price := 100, note := some "hi", status := "active",
    create_at := 0, check_in := none, check_out := none }

/-- See `exBookingB`. -/
def exDB6 : DB :=
  { rooms := [{ id := "r0", total_rooms := some 2 }], bookings := [exBookingB],
    fresh := 1 }

/-- A second active booking for the update-protocol witnesses: same room as
`exBookingB`, on the next day. -/
def exBookingC : Booking :=
  { id := genId 1, user_id := "u0", hotel_id := "h0", room_id := "r0",
    date := "2025-06-02", price := 100, note := none, status := "active",
    create_at := 0, check_in := none, check_out := none }

/-- A one-room (capacity 1) store holding `exBookingB` (2025-06-01) and
`exBookingC` (2025-06-02), both active. -/
def exDB5 : DB :=
  { rooms := [{ id := "r0", total_rooms := some 1 }],
    bookings := [exBookingB, exBookingC], fresh := 2 }

/-- An update payload that only moves the booking's date. -/
def updMoveDate : BookingService.UpdateFields :=
  { price := none, note := none, status := none, room_id := none,
    date := some "2025-06-01" }

/-- An update payload that only changes the price. -/
def updPriceOnly : BookingService.UpdateFields :=
  { price := some 50, note := none, status := none, room_id := none,
    date := none }

/-- A create request whose `user_id` is not UUID-shaped (everything else
well-formed, single-date). -/
def exCreateBadBody : CreateBody :=
  { user_id := some "bad",
    hotel_id := some "123e4567-e89b-42d3-a456-426614174000",
    room_id := some "123e4567-e89b-42d3-a456-426614174000",
    date := some "2025-06-01", dates := none, price := some 100, note := none }

/-- An update request whose price is not greater than zero. -/
def exUpdateBadBody : UpdateBody :=
  { price := some 0, note := none, status := none, room_id := none,
    date := none }

/-- A sequence of engine calls satisfying the §4 preconditions (no
status-reactivating update): book, cancel, book again. -/
def exOpsOk : List Op :=
  [Op.create "u0" "h0" "r0" "2025-06-01" 100 none 0,
   Op.cancel (genId 0),
   Op.create "u0" "h0" "r0" "2025-06-01" 100 none 1]

/-! ## General lemmas about the embedding -/

theorem countP_congr_eq {α : Type _} (p q : α → Bool) (l : List α)
    (h : ∀ a ∈ l, p a = q a) : l.countP p = l.countP q := by
  induction l with
  | nil => rfl
  | cons a l ih =>
    simp only [List.countP_cons, h a (List.mem_cons_self a l),
      ih (fun x hx => h x (List.mem_cons_of_mem a hx))]

theorem genId_length (n : Nat) : (genId n).length = n + 1 := by
  simp [genId, String.length]

theorem genId_injective {a b : Nat} (h : genId a = genId b) : a = b := by
  have hl : (genId a).length = (genId b).length := by rw [h]
  simpa [genId_length] using hl

theorem genId_ne_empty (n : Nat) : genId n ≠ "" := by
  intro h
  have hl := genId_length n
  rw [h] at hl
  simp at hl

theorem countActive_append (l₁ l₂ : List Booking) (rid d : String)
    (ex : Option String) :
    countActive (l₁ ++ l₂) rid d ex = countActive l₁ rid d ex + countActive l₂ rid d ex := by
  simp [countActive, List.countP_append]

theorem countActive_cons (b : Booking) (l : List Booking) (rid d : String)
    (ex : Option String) :
    countActive (b :: l) rid d ex =
      countActive l rid d ex +
        (if (bookingMatches rid d b && exclOk ex b) = true then 1 else 0) := by
  simp [countActive, List.countP_cons]

theorem findRoom_mem {rooms : List Room} {rid : String} {room : Room}
    (h : findRoom rooms rid = some room) : room ∈ rooms ∧ room.id = rid := by
  refine ⟨List.mem_of_find?_eq_some h, ?_⟩
  have hp := List.find?_some h
  simpa [beq_iff_eq] using hp

theorem room_eq_of_nodup {rooms : List Room} (hnd : (rooms.map Room.id).Nodup)
    {r₁ r₂ : Room} (h₁ : r₁ ∈ rooms) (h₂ : r₂ ∈ rooms) (hid : r₁.id = r₂.id) :
    r₁ = r₂ :=
  List.inj_on_of_nodup_map hnd h₁ h₂ hid

theorem mkAvail_isAvailable {room : Room} {bs : List Booking} {rid d : String}
    {ex : Option String} :
    (BookingService.mkAvail room bs rid d ex).isAvailable = true ↔
      ∃ t, room.total_rooms = some t ∧ countActive bs rid d ex < t := by
  cases h : room.total_rooms with
  | none => simp [BookingService.mkAvail, h]
  | some t => simp [BookingService.mkAvail, h]

theorem checkRoomAvailability_ok {db : DB} {rid d : String} {ex : Option String}
    {a : AvailResult}
    (h : BookingService.checkRoomAvailability db rid d ex = Except.ok a) :
    ∃ room, findRoom db.rooms rid = some room ∧
      a = BookingService.mkAvail room db.bookings rid d ex := by
  unfold BookingService.checkRoomAvailability at h
  cases hf : findRoom db.rooms rid with
  | none => rw [hf] at h; exact absurd h (by simp)
  | some room =>
    rw [hf] at h
    exact ⟨room, rfl, by injection h with h; exact h.symm⟩

/-! ## C3: behaviour of the engine's check on unset/zero capacity -/

/-- Claim C3 states that the booking engine's `checkRoomAvailability` fails
with a `CapacityUnknown` error when `total_rooms` is unset or zero.  It does
not: on both a zero-capacity and a null-capacity room it returns a
*successful* result (which treats the room as zero-capacity). -/
theorem c3_counterexample :
    BookingService.checkRoomAvailability exDBzero "rz" "2025-06-01" none =
      Except.ok { isAvailable := false, totalRooms := some 0,
                  currentBookings := 0, availableRooms := 0 } ∧
    BookingService.checkRoomAvailability exDBnull "rn" "2025-06-01" none =
      Except.ok { isAvailable := false, totalRooms := none,
                  currentBookings := 0, availableRooms := 0 } := by
  exact ⟨rfl, rfl⟩

/-- Claim C3, amended: for a room whose `total_rooms` is unset (null) or
zero, the booking engine's `checkRoomAvailability` does not fail; it
returns a successful result that silently treats the room as having zero
capacity (`isAvailable = false`, non-positive `availableRooms`).  (The
explicit "total count not set" failure exists only in
`RoomsService.checkRoomAvailability`.) -/
theorem c3_zero_capacity_reports_unavailable (db : DB) (room_id date : String)
    (room : Room) (hfind : findRoom db.rooms room_id = some room)
    (hcap : room.total_rooms = none ∨ room.total_rooms = some 0) :
    ∃ a, BookingService.checkRoomAvailability db room_id date none = Except.ok a ∧
      a.isAvailable = false ∧ a.availableRooms ≤ 0 := by
  refine ⟨BookingService.mkAvail room db.bookings room_id date none, ?_, ?_, ?_⟩
  · unfold BookingService.checkRoomAvailability
    rw [hfind]
  · rcases hcap with h | h <;> simp [BookingService.mkAvail, h]
  · rcases hcap with h | h <;> simp [BookingService.mkAvail, h]

/-- Witness for `c3_zero_capacity_reports_unavailable` at the concrete
zero-capacity store. -/
theorem c3_zero_capacity_witness :
    ∃ a, BookingService.checkRoomAvailability exDBzero "rz" "2025-06-01" none =
          Except.ok a ∧ a.isAvailable = false ∧ a.availableRooms ≤ 0 :=
  c3_zero_capacity_reports_unavailable exDBzero "rz" "2025-06-01"
    { id := "rz", total_rooms := some 0 } rfl (Or.inr rfl)

/-! ## C8: status vocabularies of the two availability computations -/

/-- Claim C8: the room-detail availability (`RoomsService`) counts
`confirmed`/`checked_in` rows while the booking engine counts `active`
rows, and the two computations disagree: on a store with one active booking
the engine reports one current booking, the rooms service reports zero
booked rooms. -/
theorem c8_status_vocabulary_mismatch :
    BookingService.checkRoomAvailability exDB8 "r8" "2025-06-01" none =
      Except.ok { isAvailable := true, totalRooms := some 3,
                  currentBookings := 1, availableRooms := 2 } ∧
    RoomsService.checkRoomAvailability exDB8 "r8" "2025-06-01" "2025-06-01" =
      Except.ok { totalRooms := 3, bookedRooms := 0, availableRooms := 3,
                  isAvailable := true } ∧
    countActive exDB8.bookings "r8" "2025-06-01" none ≠
      RoomsService.bookedCount exDB8.bookings "r8" "2025-06-01" "2025-06-01" := by
  refine ⟨rfl, rfl, by decide⟩

/-! ## C6 and C9: cancellation -/

/-- Unfolding lemma: cancelling an id that resolves to a row rewrites the
matching rows and returns the cancelled row. -/
theorem cancelBooking_found {db : DB} {id : String} {cur : Booking}
    (hfind : db.bookings.find? (fun b => b.id == id) = some cur) :
    BookingService.cancelBooking db id =
      (Except.ok { cur with status := "cancel" },
       { db with bookings := db.bookings.map (BookingService.cancelRow id) }) := by
  unfold BookingService.cancelBooking
  rw [hfind]

/-- Claim C6: cancelling an existing booking sets its status to `cancel`
and returns it; cancelling again succeeds, returns the same row, and leaves
the store exactly as after the first call. -/
theorem c6_cancelBooking_idempotent (db : DB) (id : String) (cur : Booking)
    (hfind : db.bookings.find? (fun b => b.id == id) = some cur) :
    BookingService.cancelBooking db id =
      (Except.ok { cur with status := "cancel" },
       { db with bookings := db.bookings.map (BookingService.cancelRow id) }) ∧
    BookingService.cancelBooking (BookingService.cancelBooking db id).2 id =
      ((BookingService.cancelBooking db id).1,
       (BookingService.cancelBooking db id).2) := by
  have hfirst := cancelBooking_found hfind
  have hcur : (cur.id == id) = true := by
    have hp := List.find?_some hfind
    simpa using hp
  have hfind2 :
      (db.bookings.map (BookingService.cancelRow id)).find?
          (fun b => b.id == id) = some { cur with status := "cancel" } := by
    rw [List.find?_map]
    have hpc : ((fun b : Booking => b.id == id) ∘ BookingService.cancelRow id) =
        (fun b : Booking => b.id == id) := by
      funext b
      by_cases h : (b.id == id) = true <;>
        simp [Function.comp, BookingService.cancelRow, h]
    rw [hpc, hfind]
    simp [BookingService.cancelRow, hcur]
  have hmap :
      (db.bookings.map (BookingService.cancelRow id)).map
          (BookingService.cancelRow id) =
        db.bookings.map (BookingService.cancelRow id) := by
    rw [List.map_map]
    refine List.map_congr_left ?_
    intro b _
    by_cases h : (b.id == id) = true <;>
      simp [Function.comp, BookingService.cancelRow, h]
  refine ⟨hfirst, ?_⟩
  rw [hfirst]
  have h2 := @cancelBooking_found
    { db with bookings := db.bookings.map (BookingService.cancelRow id) }
    id { cur with status := "cancel" } hfind2
  dsimp only at h2
  rw [hmap] at h2
  exact h2

/-- Witness for `c6_cancelBooking_idempotent` at the concrete store
`exDB6`. -/
theorem c6_cancelBooking_idempotent_witness :
    BookingService.cancelBooking exDB6 (genId 0) =
      (Except.ok { exBookingB with status := "cancel" },
       { exDB6 with bookings := exDB6.bookings.map (BookingService.cancelRow (genId 0)) }) ∧
    BookingService.cancelBooking (BookingService.cancelBooking exDB6 (genId 0)).2 (genId 0) =
      ((BookingService.cancelBooking exDB6 (genId 0)).1,
       (BookingService.cancelBooking exDB6 (genId 0)).2) :=
  c6_cancelBooking_idempotent exDB6 (genId 0) exBookingB (by rfl)

/-- Claim C9 fails in its surfacing half: cancelling a UUID-shaped id that
resolves to no row throws the wrapped `.single()` zero-row failure
("Failed to cancel booking: ..."), whose message lacks the "not found"
substring the controller greps for, so the HTTP response is the generic
500 internal error, not a not-found condition. -/
theorem c9_counterexample :
    BookingService.cancelBooking exDB8
        "123e4567-e89b-42d3-a456-426614174000" =
      (Except.error BookingErr.cancelFailed, exDB8) ∧
    BookingController.cancelBooking exDB8
        "123e4567-e89b-42d3-a456-426614174000" =
      (CtrlResp.serverErr BookingErr.cancelFailed, exDB8) := by
  exact ⟨rfl, rfl⟩

/-- Claim C9, amended: cancelling a booking id that resolves to no row
returns a failure (never success, no row created) and leaves the booking
store completely unchanged — but the failure is the wrapped `.single()`
zero-row error, which the controller surfaces as the generic 500 internal
failure rather than as a not-found condition (its
`includes("not found")` test does not match that message). -/
theorem c9_cancel_missing_booking (db : DB) (id : String)
    (hfind : db.bookings.find? (fun b => b.id == id) = none) :
    BookingService.cancelBooking db id =
      (Except.error BookingErr.cancelFailed, db) ∧
    (isValidUuid id = true →
      BookingController.cancelBooking db id =
        (CtrlResp.serverErr BookingErr.cancelFailed, db)) := by
  have hsvc : BookingService.cancelBooking db id =
      (Except.error BookingErr.cancelFailed, db) := by
    unfold BookingService.cancelBooking
    rw [hfind]
  refine ⟨hsvc, fun huuid => ?_⟩
  unfold BookingController.cancelBooking
  rw [huuid]
  simp [hsvc, errIsNotFound]

/-- Witness for `c9_cancel_missing_booking`: cancelling a UUID-shaped id
on a store that has no such row. -/
theorem c9_cancel_missing_booking_witness :
    BookingService.cancelBooking exDB6
        "123e4567-e89b-42d3-a456-426614174000" =
      (Except.error BookingErr.cancelFailed, exDB6) ∧
    (isValidUuid "123e4567-e89b-42d3-a456-426614174000" = true →
      BookingController.cancelBooking exDB6
          "123e4567-e89b-42d3-a456-426614174000" =
        (CtrlResp.serverErr BookingErr.cancelFailed, exDB6)) :=
  c9_cancel_missing_booking exDB6 "123e4567-e89b-42d3-a456-426614174000"
    (by rfl)

/-! ## C4: the availability computation -/

/-- The engine's count agrees with the spec-worded count whenever the
supplied `excludeBookingId`, if any, is a well-formed (non-empty) id. -/
theorem countActive_eq_specActiveCount (bs : List Booking) (room_id date : String)
    (ex : Option String) (hex : ∀ e, ex = some e → e ≠ "") :
    countActive bs room_id date ex = specActiveCount bs room_id date ex := by
  rw [specActiveCount, ← List.countP_eq_length_filter]
  refine countP_congr_eq _ _ _ ?_
  intro b _
  rw [Bool.eq_iff_iff]
  cases ex with
  | none =>
    simp [bookingMatches, exclOk, and_assoc]
  | some e =>
    have he : e ≠ "" := hex e rfl
    simp [bookingMatches, exclOk, he, and_assoc]

/-- Claim C4: for an existing room with `total_rooms` set, the engine's
check succeeds and reports `currentBookings` as exactly the count of
bookings with matching room, exactly matching date, `active` status, and an
id different from `excludeBookingId` when one is given;
`availableRooms = totalRooms - currentBookings`; and `isAvailable` holds
exactly when `currentBookings < totalRooms`. -/
theorem c4_checkRoomAvailability_spec (db : DB) (room_id date : String)
    (ex : Option String) (room : Room) (t : Nat)
    (hfind : findRoom db.rooms room_id = some room)
    (ht : room.total_rooms = some t)
    (hex : ∀ e, ex = some e → e ≠ "") :
    ∃ a, BookingService.checkRoomAvailability db room_id date ex = Except.ok a ∧
      a.currentBookings = specActiveCount db.bookings room_id date ex ∧
      a.totalRooms = some t ∧
      a.availableRooms =
        (t : Int) - (specActiveCount db.bookings room_id date ex : Int) ∧
      (a.isAvailable = true ↔ specActiveCount db.bookings room_id date ex < t) := by
  have hcount := countActive_eq_specActiveCount db.bookings room_id date ex hex
  refine ⟨BookingService.mkAvail room db.bookings room_id date ex, ?_, ?_, ?_, ?_, ?_⟩
  · unfold BookingService.checkRoomAvailability
    rw [hfind]
  · simpa [BookingService.mkAvail] using hcount
  · simp [BookingService.mkAvail, ht]
  · simp [BookingService.mkAvail, ht, hcount]
  · simp [BookingService.mkAvail, ht, hcount]

/-- Witness for `c4_checkRoomAvailability_spec` on the concrete store
`exDB5`, excluding the second booking. -/
theorem c4_checkRoomAvailability_witness :
    ∃ a, BookingService.checkRoomAvailability exDB5 "r0" "2025-06-01"
          (some (genId 1)) = Except.ok a ∧
      a.currentBookings = specActiveCount exDB5.bookings "r0" "2025-06-01" (some (genId 1)) ∧
      a.totalRooms = some 1 ∧
      a.availableRooms =
        (1 : Int) - (specActiveCount exDB5.bookings "r0" "2025-06-01" (some (genId 1)) : Int) ∧
      (a.isAvailable = true ↔
        specActiveCount exDB5.bookings "r0" "2025-06-01" (some (genId 1)) < 1) :=
  c4_checkRoomAvailability_spec exDB5 "r0" "2025-06-01" (some (genId 1))
    { id := "r0", total_rooms := some 1 } 1 (by rfl) rfl
    (by intro e he; cases he; decide)

/-! ## C5: the update protocol -/

/-- A status value restricted to the valid vocabulary never trips the
status guard. -/
theorem statusInvalid_false {u : BookingService.UpdateFields}
    (hstat : ∀ s, u.status = some s → s = "active" ∨ s = "cancel") :
    BookingService.statusInvalid u = false := by
  cases hs : u.status with
  | none => simp [BookingService.statusInvalid, hs, jsTruthyS]
  | some s =>
    rcases hstat s hs with h | h <;>
      simp [BookingService.statusInvalid, hs, jsTruthyS, h]

/-- A supplied, well-formed optional string falls back through `||` exactly
like `Option.getD`. -/
theorem jsOrD_eq_getD {o : Option String} (ho : ∀ s, o = some s → s ≠ "")
    (d : String) : jsOrD o d = o.getD d := by
  cases h : o with
  | none => rfl
  | some s =>
    have := ho s h
    simp [jsOrD, this]

/-- Claim C5, both halves.  First half: when the update supplies `room_id`
or `date` (well-formed, valid status), the engine re-checks availability at
the effective room/date (new value if supplied, else the booking's current
one) excluding the booking itself, fails fully-booked leaving the store
unchanged when unavailable, and proceeds to the plain partial update when
available.  Second half: an update supplying only price/note/status skips
the availability check entirely and is applied directly. -/
theorem c5_updateBooking_protocol :
    (∀ (db : DB) (id : String) (u : BookingService.UpdateFields)
        (cur : Booking) (a : AvailResult),
      (∀ s, u.status = some s → s = "active" ∨ s = "cancel") →
      (∀ s, u.room_id = some s → s ≠ "") →
      (∀ s, u.date = some s → s ≠ "") →
      (u.room_id ≠ none ∨ u.date ≠ none) →
      BookingService.getBookingById db id = Except.ok cur →
      BookingService.checkRoomAvailability db (u.room_id.getD cur.room_id)
        (u.date.getD cur.date) (some id) = Except.ok a →
      ((a.isAvailable = false →
        BookingService.updateBooking db id u =
          (Except.error (BookingErr.roomFullyBooked (u.date.getD cur.date)
            a.totalRooms a.currentBookings), db)) ∧
       (a.isAvailable = true →
        BookingService.updateBooking db id u = BookingService.applyUpdate db id u))) ∧
    (∀ (db : DB) (id : String) (u : BookingService.UpdateFields) (cur : Booking),
      (∀ s, u.status = some s → s = "active" ∨ s = "cancel") →
      u.room_id = none → u.date = none →
      db.bookings.find? (fun b => b.id == id) = some cur →
      BookingService.updateBooking db id u =
        (Except.ok (BookingService.applyFields u cur),
         { db with bookings := db.bookings.map (BookingService.updateRow id u) })) := by
  constructor
  · intro db id u cur a hstat hwr hwd hsup hget hchk
    have hsinv := statusInvalid_false hstat
    have htruthy : (jsTruthyS u.room_id || jsTruthyS u.date) = true := by
      rcases hsup with h | h
      · cases hr : u.room_id with
        | none => exact absurd hr h
        | some s => simp [jsTruthyS, hwr s hr]
      · cases hd : u.date with
        | none => exact absurd hd h
        | some s => simp [jsTruthyS, hwd s hd]
    have her : jsOrD u.room_id cur.room_id = u.room_id.getD cur.room_id :=
      jsOrD_eq_getD hwr _
    have hed : jsOrD u.date cur.date = u.date.getD cur.date :=
      jsOrD_eq_getD hwd _
    have hbody : BookingService.updateBooking db id u =
        (if !a.isAvailable then
          (Except.error (BookingErr.roomFullyBooked (u.date.getD cur.date)
            a.totalRooms a.currentBookings), db)
         else BookingService.applyUpdate db id u) := by
      unfold BookingService.updateBooking
      rw [hsinv, htruthy, hget]
      simp only [her, hed]
      rw [hchk]
      simp
    constructor
    · intro hna
      rw [hbody, hna]
      simp
    · intro hya
      rw [hbody, hya]
      simp
  · intro db id u cur hstat hrn hdn hfind
    have hsinv := statusInvalid_false hstat
    have hbody : BookingService.updateBooking db id u =
        BookingService.applyUpdate db id u := by
      unfold BookingService.updateBooking
      rw [hsinv, hrn, hdn]
      simp [jsTruthyS]
    rw [hbody]
    unfold BookingService.applyUpdate
    rw [hfind]

/-- Witness for `c5_updateBooking_protocol`: moving `exBookingC` onto a full
date fails fully-booked and changes nothing, while a price-only update on
`exBookingB` is applied with no availability check. -/
theorem c5_updateBooking_witness :
    BookingService.updateBooking exDB5 (genId 1) updMoveDate =
      (Except.error (BookingErr.roomFullyBooked "2025-06-01" (some 1) 1), exDB5) ∧
    BookingService.updateBooking exDB5 (genId 0) updPriceOnly =
      (Except.ok (BookingService.applyFields updPriceOnly exBookingB),
       { exDB5 with bookings :=
          exDB5.bookings.map (BookingService.updateRow (genId 0) updPriceOnly) }) := by
  constructor
  · exact (c5_updateBooking_protocol.1 exDB5 (genId 1) updMoveDate exBookingC
      { isAvailable := false, totalRooms := some 1, currentBookings := 1,
        availableRooms := 0 }
      (by intro s hs; simp [updMoveDate] at hs)
      (by intro s hs; simp [updMoveDate] at hs)
      (by intro s hs; simp [updMoveDate] at hs; subst hs; decide)
      (Or.inr (by simp [updMoveDate]))
      rfl rfl).1 rfl
  · exact c5_updateBooking_protocol.2 exDB5 (genId 0) updPriceOnly exBookingB
      (by intro s hs; simp [updPriceOnly] at hs) rfl rfl rfl

/-! ## C10: shape of inserted rows -/

theorem mkRows_mem (u h r : String) (p : Int) (n : Option String) (now : Nat) :
    ∀ (f : Nat) (dates : List String) (b : Booking),
      b ∈ BookingService.mkRows f u h r p n now dates →
      b.status = "active" ∧ b.room_id = r ∧ b.note = jsOrNullS n ∧
      b.date ∈ dates ∧ ∃ k, f ≤ k ∧ k < f + dates.length ∧ b.id = genId k := by
  intro f dates
  induction dates generalizing f with
  | nil => intro b hb; exact absurd hb (List.not_mem_nil b)
  | cons d rest ih =>
    intro b hb
    rcases List.mem_cons.mp hb with h1 | h1
    · subst h1
      exact ⟨rfl, rfl, rfl, List.mem_cons_self _ _,
        f, Nat.le_refl f, by simp, rfl⟩
    · obtain ⟨hs, hr, hn, hd, k, hk1, hk2, hk3⟩ := ih (f + 1) b h1
      exact ⟨hs, hr, hn, List.mem_cons_of_mem _ hd, k, by omega,
        by simp only [List.length_cons]; omega, hk3⟩

theorem mkRows_ids_nodup (u h r : String) (p : Int) (n : Option String) (now : Nat) :
    ∀ (f : Nat) (dates : List String),
      ((BookingService.mkRows f u h r p n now dates).map Booking.id).Nodup := by
  intro f dates
  induction dates generalizing f with
  | nil => simp [BookingService.mkRows]
  | cons d rest ih =>
    simp only [BookingService.mkRows, List.map_cons, List.nodup_cons]
    refine ⟨?_, ih (f + 1)⟩
    intro hmem
    rcases List.mem_map.mp hmem with ⟨b, hb, hid⟩
    obtain ⟨_, _, _, _, k, hk1, _, hk3⟩ := mkRows_mem u h r p n now (f + 1) rest b hb
    rw [hk3] at hid
    have := genId_injective hid
    omega

theorem mkRows_length (u h r : String) (p : Int) (n : Option String) (now : Nat) :
    ∀ (f : Nat) (dates : List String),
      (BookingService.mkRows f u h r p n now dates).length = dates.length := by
  intro f dates
  induction dates generalizing f with
  | nil => rfl
  | cons d rest ih => simp [BookingService.mkRows, ih (f + 1)]

theorem mkRows_map_date (u h r : String) (p : Int) (n : Option String) (now : Nat) :
    ∀ (f : Nat) (dates : List String),
      (BookingService.mkRows f u h r p n now dates).map Booking.date = dates := by
  intro f dates
  induction dates generalizing f with
  | nil => rfl
  | cons d rest ih =>
    simp only [BookingService.mkRows, List.map_cons, ih (f + 1)]
    rfl

theorem createBooking_ok {db : DB} {u h r d : String} {p : Int}
    {n : Option String} {now : Nat} {bk : Booking} {db' : DB}
    (hok : BookingService.createBooking db u h r d p n now = (Except.ok bk, db')) :
    bk = BookingService.newBookingRow (genId db.fresh) u h r d p n now ∧
    db' = { db with bookings := db.bookings ++ [bk], fresh := db.fresh + 1 } ∧
    ∃ room t, findRoom db.rooms r = some room ∧ room.total_rooms = some t ∧
      countActive db.bookings r d none < t := by
  unfold BookingService.createBooking at hok
  cases hchk : BookingService.checkRoomAvailability db r d none with
  | error e =>
    rw [hchk] at hok
    exact absurd hok (by simp)
  | ok a =>
    rw [hchk] at hok
    obtain ⟨room, hroom, ha⟩ := checkRoomAvailability_ok hchk
    by_cases hav : a.isAvailable = true
    · simp only [hav, Bool.not_true, Bool.false_eq_true, if_false,
        Prod.mk.injEq, Except.ok.injEq] at hok
      obtain ⟨h1, h2⟩ := hok
      subst h1
      refine ⟨rfl, h2.symm, ?_⟩
      have hiav : ∃ t, room.total_rooms = some t ∧
          countActive db.bookings r d none < t :=
        mkAvail_isAvailable.mp (by rw [ha] at hav; exact hav)
      obtain ⟨t, ht, hc⟩ := hiav
      exact ⟨room, t, hroom, ht, hc⟩
    · rw [Bool.not_eq_true] at hav
      simp only [hav, Bool.not_false, if_true] at hok
      exact absurd hok (by simp)

theorem createMultipleBookings_ok {db : DB} {u h r : String}
    {dates : List String} {p : Int} {n : Option String} {now : Nat}
    {rows : List Booking} {db' : DB}
    (hok : BookingService.createMultipleBookings db u h r dates p n now =
      (Except.ok rows, db')) :
    rows = BookingService.mkRows db.fresh u h r p n now dates ∧
    db' = { db with
            bookings := db.bookings ++ rows,
            fresh := db.fresh + dates.length } ∧
    dates ≠ [] ∧
    BookingService.collectUnavail db r dates = Except.ok [] := by
  unfold BookingService.createMultipleBookings at hok
  by_cases hemp : dates.isEmpty
  · rw [if_pos hemp] at hok
    exact absurd hok (by simp)
  · rw [if_neg hemp] at hok
    cases hcol : BookingService.collectUnavail db r dates with
    | error e =>
      rw [hcol] at hok
      exact absurd hok (by simp)
    | ok unavail =>
      rw [hcol] at hok
      dsimp only at hok
      by_cases hun : unavail.isEmpty
      · rw [if_pos hun] at hok
        simp only [Prod.mk.injEq, Except.ok.injEq] at hok
        obtain ⟨h1, h2⟩ := hok
        subst h1
        refine ⟨rfl, h2.symm, ?_, ?_⟩
        · intro hd; rw [hd] at hemp; exact hemp rfl
        · exact congrArg Except.ok (List.isEmpty_iff.mp hun)
      · rw [if_neg hun] at hok
        exact absurd hok (by simp)

/-- Claim C10: every row inserted by `createBooking` or
`createMultipleBookings` has status `active` and a freshly generated id
(new with respect to every id already in a well-formed store), and its note
is stored as `null` whenever the supplied note is absent or the empty
string. -/
theorem c10_insert_row_shape :
    (∀ (db : DB) (u h r d : String) (p : Int) (n : Option String) (now : Nat)
        (bk : Booking) (db' : DB),
      BookingService.createBooking db u h r d p n now = (Except.ok bk, db') →
      bk.status = "active" ∧ bk.id = genId db.fresh ∧
      ((n = none ∨ n = some "") → bk.note = none) ∧
      (StoreWF db → ∀ b' ∈ db.bookings, b'.id ≠ bk.id) ∧
      db'.bookings = db.bookings ++ [bk]) ∧
    (∀ (db : DB) (u h r : String) (dates : List String) (p : Int)
        (n : Option String) (now : Nat) (rows : List Booking) (db' : DB),
      BookingService.createMultipleBookings db u h r dates p n now =
        (Except.ok rows, db') →
      (∀ bk ∈ rows, bk.status = "active" ∧ bk.id ∈ (List.range dates.length).map (fun i => genId (db.fresh + i)) ∧
        ((n = none ∨ n = some "") → bk.note = none)) ∧
      (rows.map Booking.id).Nodup ∧
      (StoreWF db → ∀ bk ∈ rows, ∀ b' ∈ db.bookings, b'.id ≠ bk.id) ∧
      db'.bookings = db.bookings ++ rows) := by
  constructor
  · intro db u h r d p n now bk db' hok
    obtain ⟨h1, h2, -⟩ := createBooking_ok hok
    subst h1
    refine ⟨rfl, rfl, ?_, ?_, by rw [h2]⟩
    · rintro (hn | hn) <;> simp [BookingService.newBookingRow, hn, jsOrNullS]
    · intro hwf b' hb' heq
      obtain ⟨-, -, hgen⟩ := hwf
      obtain ⟨k, hk1, hk2⟩ := hgen b' hb'
      rw [hk2] at heq
      have := genId_injective heq
      omega
  · intro db u h r dates p n now rows db' hok
    obtain ⟨h1, h2, -, -⟩ := createMultipleBookings_ok hok
    subst h1
    refine ⟨?_, mkRows_ids_nodup u h r p n now db.fresh dates, ?_, by rw [h2]⟩
    · intro bk hbk
      obtain ⟨hs, -, hn, -, k, hk1, hk2, hk3⟩ :=
        mkRows_mem u h r p n now db.fresh dates bk hbk
      refine ⟨hs, ?_, ?_⟩
      · rw [hk3]
        refine List.mem_map.mpr ⟨k - db.fresh, ?_, ?_⟩
        · rw [List.mem_range]; omega
        · congr 1; omega
      · rintro (h | h) <;> simp [hn, h, jsOrNullS]
    · intro hwf bk hbk b' hb' heq
      obtain ⟨-, -, hgen⟩ := hwf
      obtain ⟨k', hk1', hk2'⟩ := hgen b' hb'
      obtain ⟨-, -, -, -, k, hk1, hk2, hk3⟩ :=
        mkRows_mem u h r p n now db.fresh dates bk hbk
      rw [hk2', hk3] at heq
      have := genId_injective heq
      omega

/-- Witness for `c10_insert_row_shape`: a concrete single-date insert (no
note) and a concrete two-date insert (empty-string note). -/
theorem c10_insert_row_shape_witness :
    (∃ bk db',
      BookingService.createBooking exDB1 "u0" "h0" "r0" "2025-06-01" 100 none 0 =
        (Except.ok bk, db') ∧
      bk.status = "active" ∧ bk.id = genId exDB1.fresh ∧ bk.note = none ∧
      (∀ b' ∈ exDB1.bookings, b'.id ≠ bk.id) ∧
      db'.bookings = exDB1.bookings ++ [bk]) ∧
    (∃ rows db2,
      BookingService.createMultipleBookings exDB1 "u0" "h0" "r0"
          ["2025-06-01", "2025-06-02"] 100 (some "") 0 = (Except.ok rows, db2) ∧
      (∀ bk ∈ rows, bk.status = "active" ∧ bk.note = none) ∧
      (rows.map Booking.id).Nodup) := by
  have hwf : StoreWF exDB1 :=
    ⟨by decide, by decide, by intro b hb; exact absurd hb (List.not_mem_nil b)⟩
  constructor
  · have hrun : BookingService.createBooking exDB1 "u0" "h0" "r0" "2025-06-01"
        100 none 0 =
        (Except.ok (BookingService.newBookingRow (genId 0) "u0" "h0" "r0"
          "2025-06-01" 100 none 0),
         { exDB1 with
           bookings := exDB1.bookings ++
             [BookingService.newBookingRow (genId 0) "u0" "h0" "r0"
               "2025-06-01" 100 none 0],
           fresh := 1 }) := rfl
    have h := c10_insert_row_shape.1 exDB1 "u0" "h0" "r0" "2025-06-01" 100
      none 0 _ _ hrun
    exact ⟨_, _, hrun, h.1, h.2.1, h.2.2.1 (Or.inl rfl), h.2.2.2.1 hwf,
      h.2.2.2.2⟩
  · have hrun2 : BookingService.createMultipleBookings exDB1 "u0" "h0" "r0"
        ["2025-06-01", "2025-06-02"] 100 (some "") 0 =
        (Except.ok (BookingService.mkRows 0 "u0" "h0" "r0" 100 (some "") 0
          ["2025-06-01", "2025-06-02"]),
         { exDB1 with
           bookings := exDB1.bookings ++ BookingService.mkRows 0 "u0" "h0" "r0"
             100 (some "") 0 ["2025-06-01", "2025-06-02"],
           fresh := 2 }) := rfl
    have h := c10_insert_row_shape.2 exDB1 "u0" "h0" "r0"
      ["2025-06-01", "2025-06-02"] 100 (some "") 0 _ _ hrun2
    refine ⟨_, _, hrun2, ?_, h.2.1⟩
    intro bk hbk
    exact ⟨(h.1 bk hbk).1, (h.1 bk hbk).2.2 (Or.inr rfl)⟩

/-! ## C2: all-or-nothing multi-date creation -/

/-- When the room row resolves, the validation loop runs to completion and
returns exactly the `unavailReport` conflict list. -/
theorem collectUnavail_eq {db : DB} {room_id : String} {room : Room}
    (hfind : findRoom db.rooms room_id = some room) :
    ∀ dates, BookingService.collectUnavail db room_id dates =
      Except.ok (unavailReport db room room_id dates) := by
  intro dates
  induction dates with
  | nil => rfl
  | cons d rest ih =>
    have hchk : BookingService.checkRoomAvailability db room_id d none =
        Except.ok (BookingService.mkAvail room db.bookings room_id d none) := by
      unfold BookingService.checkRoomAvailability
      rw [hfind]
    simp only [BookingService.collectUnavail, hchk, ih]
    unfold unavailReport
    simp only [List.filterMap_cons]
    by_cases hav : (BookingService.mkAvail room db.bookings room_id d none).isAvailable
    · simp [hav]
    · rw [Bool.not_eq_true] at hav
      simp [hav]

/-- Claim C2: for a non-empty multi-date request on an existing room, if at
least one date is unavailable at validation time the whole request fails
with the fully-booked error carrying every unavailable date together with
its `totalRooms`/`currentBookings`, and the store is unchanged (zero rows
inserted); if every date is available, exactly one `active` row per
requested date is inserted. -/
theorem c2_createMultipleBookings_all_or_nothing
    (db : DB) (u h room_id : String) (dates : List String) (p : Int)
    (n : Option String) (now : Nat) (room : Room)
    (hfind : findRoom db.rooms room_id = some room) (hne : dates ≠ []) :
    (unavailReport db room room_id dates ≠ [] →
      BookingService.createMultipleBookings db u h room_id dates p n now =
        (Except.error (BookingErr.roomFullyBookedMulti
          (unavailReport db room room_id dates)), db)) ∧
    (unavailReport db room room_id dates = [] →
      BookingService.createMultipleBookings db u h room_id dates p n now =
        (Except.ok (BookingService.mkRows db.fresh u h room_id p n now dates),
         { db with
           bookings := db.bookings ++
             BookingService.mkRows db.fresh u h room_id p n now dates,
           fresh := db.fresh + dates.length }) ∧
      (BookingService.mkRows db.fresh u h room_id p n now dates).length =
        dates.length ∧
      (BookingService.mkRows db.fresh u h room_id p n now dates).map
        Booking.date = dates ∧
      ∀ bk ∈ BookingService.mkRows db.fresh u h room_id p n now dates,
        bk.status = "active") ∧
    (∀ d ∈ dates,
      (BookingService.mkAvail room db.bookings room_id d none).isAvailable = false →
      (d, (BookingService.mkAvail room db.bookings room_id d none).totalRooms,
          (BookingService.mkAvail room db.bookings room_id d none).currentBookings) ∈
        unavailReport db room room_id dates) := by
  have hemp : dates.isEmpty = false := by
    cases dates with
    | nil => exact absurd rfl hne
    | cons a l => rfl
  have hcol := collectUnavail_eq hfind dates
  have key : BookingService.createMultipleBookings db u h room_id dates p n now =
      (if (unavailReport db room room_id dates).isEmpty then
        (Except.ok (BookingService.mkRows db.fresh u h room_id p n now dates),
         { db with
           bookings := db.bookings ++
             BookingService.mkRows db.fresh u h room_id p n now dates,
           fresh := db.fresh + dates.length })
       else
        (Except.error (BookingErr.roomFullyBookedMulti
          (unavailReport db room room_id dates)), db)) := by
    unfold BookingService.createMultipleBookings
    rw [if_neg (by simp [hemp]), hcol]
  refine ⟨?_, ?_, ?_⟩
  · intro hne'
    rw [key, if_neg (by simp [List.isEmpty_iff, hne'])]
  · intro heq
    rw [key, if_pos (by simp [List.isEmpty_iff, heq])]
    exact ⟨rfl, mkRows_length u h room_id p n now db.fresh dates,
      mkRows_map_date u h room_id p n now db.fresh dates,
      fun bk hbk => (mkRows_mem u h room_id p n now db.fresh dates bk hbk).1⟩
  · intro d hd hav
    unfold unavailReport
    refine List.mem_filterMap.mpr ⟨d, hd, ?_⟩
    simp [hav]

/-- Witness for `c2_createMultipleBookings_all_or_nothing`: a two-date
request with one fully-booked date fails whole with the store unchanged; a
one-date request on a free room inserts exactly one row. -/
theorem c2_all_or_nothing_witness :
    BookingService.createMultipleBookings exDB5 "u0" "h0" "r0"
        ["2025-06-03", "2025-06-01"] 100 none 0 =
      (Except.error (BookingErr.roomFullyBookedMulti
        (unavailReport exDB5 { id := "r0", total_rooms := some 1 } "r0"
          ["2025-06-03", "2025-06-01"])), exDB5) ∧
    BookingService.createMultipleBookings exDB1 "u0" "h0" "r0"
        ["2025-06-01"] 100 none 0 =
      (Except.ok (BookingService.mkRows 0 "u0" "h0" "r0" 100 none 0
        ["2025-06-01"]),
       { exDB1 with
         bookings := exDB1.bookings ++
           BookingService.mkRows 0 "u0" "h0" "r0" 100 none 0 ["2025-06-01"],
         fresh := 1 }) := by
  constructor
  · exact (c2_createMultipleBookings_all_or_nothing exDB5 "u0" "h0" "r0"
      ["2025-06-03", "2025-06-01"] 100 none 0
      { id := "r0", total_rooms := some 1 } rfl (by decide)).1 (by decide)
  · exact ((c2_createMultipleBookings_all_or_nothing exDB1 "u0" "h0" "r0"
      ["2025-06-01"] 100 none 0
      { id := "r0", total_rooms := some 1 } rfl (by decide)).2.1 (by decide)).1

/-! ## C7: boundary validation -/

theorem singleDateErrors_ne_nil {d : String} {today : Int}
    (h : parseDate d = none ∨ ∃ v, parseDate d = some v ∧ v < today) :
    BookingController.singleDateErrors d today ≠ [] := by
  unfold BookingController.singleDateErrors
  rcases h with h | ⟨v, hv, hlt⟩
  · rw [h]; simp
  · rw [hv]; simp [hlt]

theorem dateIndexErrors_ne_nil {today : Int} :
    ∀ (i : Nat) (dates : List String),
      (∃ d ∈ dates, parseDate d = none ∨ ∃ v, parseDate d = some v ∧ v < today) →
      BookingController.dateIndexErrors i today dates ≠ [] := by
  intro i dates
  induction dates generalizing i with
  | nil =>
    rintro ⟨d, hd, -⟩
    exact absurd hd (List.not_mem_nil d)
  | cons d rest ih =>
    rintro ⟨d', hd', hbad⟩
    simp only [BookingController.dateIndexErrors]
    rcases List.mem_cons.mp hd' with rfl | hmem
    · rcases hbad with hp | ⟨v, hv, hlt⟩
      · rw [hp]; simp
      · rw [hv]; simp [hlt]
    · intro hcontra
      rcases List.append_eq_nil.mp hcontra with ⟨-, h2⟩
      exact ih (i + 1) ⟨d', hmem, hbad⟩ h2

theorem hasDuplicateDates_of_not_nodup {l : List String} (h : ¬ l.Nodup) :
    BookingController.hasDuplicateDates l = true := by
  unfold BookingController.hasDuplicateDates
  have hsub : l.dedup.Sublist l := List.dedup_sublist l
  have hne : l.dedup.length ≠ l.length := by
    intro heq
    have hself : l.dedup = l := hsub.eq_of_length heq
    exact h (hself ▸ List.nodup_dedup l)
  simpa [bne_iff_ne] using hne

theorem multiDateErrors_ne_nil {dates : List String} {today : Int}
    (h : 30 < dates.length ∨ ¬ dates.Nodup ∨
      ∃ d ∈ dates, parseDate d = none ∨ ∃ v, parseDate d = some v ∧ v < today) :
    BookingController.multiDateErrors dates today ≠ [] := by
  unfold BookingController.multiDateErrors
  rcases h with h | h | h
  · rw [if_pos (by simpa using h)]
    simp
  · rw [if_pos (hasDuplicateDates_of_not_nodup h)]
    simp
  · intro hcontra
    rcases List.append_eq_nil.mp hcontra with ⟨h12, -⟩
    rcases List.append_eq_nil.mp h12 with ⟨-, h2⟩
    exact dateIndexErrors_ne_nil 0 dates h h2

/-- The controller rejects with the validation list whenever the error list
it builds is non-empty and the request shape is single- or multi-date. -/
theorem createBookingCtrl_validation {db : DB} {today : Int} {now : Nat}
    {body : CreateBody}
    (hshape : BookingController.isSingleDate body = true ∨
      BookingController.isMultipleDates body = true)
    (hne : BookingController.createErrors body today ≠ []) :
    BookingController.createBooking db today now body =
      (CtrlResp.validationFailed (BookingController.createErrors body today), db) := by
  unfold BookingController.createBooking
  have hcond : (!BookingController.isSingleDate body &&
      !BookingController.isMultipleDates body) = false := by
    rcases hshape with h | h <;> simp [h]
  rw [hcond]
  simp only [Bool.false_eq_true, if_false]
  rw [if_pos (List.length_pos.mpr hne)]

theorem ne_nil_left {α : Type _} {l₁ l₂ : List α} (h : l₁ ≠ []) : l₁ ++ l₂ ≠ [] := by
  intro hc
  exact h (List.append_eq_nil.mp hc).1

theorem ne_nil_right {α : Type _} {l₁ l₂ : List α} (h : l₂ ≠ []) : l₁ ++ l₂ ≠ [] := by
  intro hc
  exact h (List.append_eq_nil.mp hc).2

/-- The controller rejects an update with the validation list whenever the
booking id is UUID-shaped and the error list it builds is non-empty. -/
theorem updateBookingCtrl_validation {db : DB} {today : Int} {id : String}
    {body : UpdateBody} (huuid : isValidUuid id = true)
    (hne : BookingController.updateErrors body today ≠ []) :
    BookingController.updateBooking db today id body =
      (CtrlResp.validationFailed (BookingController.updateErrors body today), db) := by
  unfold BookingController.updateBooking
  rw [huuid]
  simp only [Bool.not_true, Bool.false_eq_true, if_false]
  rw [if_pos (List.length_pos.mpr hne)]

/-- Claim C7: malformed booking-creation or booking-update input — a
non-UUID identifier, a non-positive price, an invalid or past date, more
than 30 dates, duplicate dates, or an invalid status — is rejected by the
controller with the validation-error list (whose messages name the
offending fields) before any service call, leaving the store unchanged. -/
theorem c7_validation_rejects_malformed :
    (∀ (db : DB) (today : Int) (now : Nat) (body : CreateBody),
      (BookingController.isSingleDate body = true ∨
        BookingController.isMultipleDates body = true) →
      ((∃ s, body.user_id = some s ∧ s ≠ "" ∧ isValidUuid s = false) ∨
       (∃ s, body.hotel_id = some s ∧ s ≠ "" ∧ isValidUuid s = false) ∨
       (∃ s, body.room_id = some s ∧ s ≠ "" ∧ isValidUuid s = false) ∨
       (∃ p, body.price = some p ∧ p ≤ 0) ∨
       (BookingController.isSingleDate body = true ∧
         (parseDate (body.date.getD "") = none ∨
          ∃ v, parseDate (body.date.getD "") = some v ∧ v < today)) ∨
       (BookingController.isMultipleDates body = true ∧
         (30 < (body.dates.getD []).length ∨ ¬ (body.dates.getD []).Nodup ∨
          ∃ d ∈ body.dates.getD [], parseDate d = none ∨
            ∃ v, parseDate d = some v ∧ v < today))) →
      BookingController.createBooking db today now body =
        (CtrlResp.validationFailed (BookingController.createErrors body today), db) ∧
      BookingController.createErrors body today ≠ []) ∧
    (∀ (db : DB) (today : Int) (id : String) (body : UpdateBody),
      (isValidUuid id = false →
        BookingController.updateBooking db today id body =
          (CtrlResp.badRequest "Invalid booking ID format", db)) ∧
      (isValidUuid id = true →
        ((∃ p, body.price = some p ∧ p ≤ 0) ∨
         (∃ s, body.status = some s ∧ s ≠ "active" ∧ s ≠ "cancel") ∨
         (∃ s, body.room_id = some s ∧ isValidUuid s = false) ∨
         (body.date.isSome = true ∧
           (parseDate (body.date.getD "") = none ∨
            ∃ v, parseDate (body.date.getD "") = some v ∧ v < today))) →
        BookingController.updateBooking db today id body =
          (CtrlResp.validationFailed (BookingController.updateErrors body today), db) ∧
        BookingController.updateErrors body today ≠ [])) := by
  constructor
  · intro db today now body hshape hbad
    have hne : BookingController.createErrors body today ≠ [] := by
      unfold BookingController.createErrors
      rcases hbad with ⟨s, hs, hsne, hsbad⟩ | ⟨s, hs, hsne, hsbad⟩ |
        ⟨s, hs, hsne, hsbad⟩ | ⟨p, hp, hple⟩ | ⟨hsd, hdd⟩ | ⟨hmd, hmm⟩
      · refine ne_nil_left (ne_nil_left (ne_nil_left (ne_nil_left
          (ne_nil_right ?_))))
        rw [if_pos (by rw [hs]; simp [jsTruthyS, hsne, hsbad])]
        simp
      · refine ne_nil_left (ne_nil_left (ne_nil_left (ne_nil_right ?_)))
        rw [if_pos (by rw [hs]; simp [jsTruthyS, hsne, hsbad])]
        simp
      · refine ne_nil_left (ne_nil_left (ne_nil_right ?_))
        rw [if_pos (by rw [hs]; simp [jsTruthyS, hsne, hsbad])]
        simp
      · refine ne_nil_left (ne_nil_left (ne_nil_left (ne_nil_left
          (ne_nil_left (ne_nil_right ?_)))))
        rw [if_pos (by rw [hp]; simp [hple])]
        simp
      · refine ne_nil_left (ne_nil_right ?_)
        rw [if_pos hsd]
        exact singleDateErrors_ne_nil hdd
      · refine ne_nil_right ?_
        rw [if_pos hmd]
        exact multiDateErrors_ne_nil hmm
    exact ⟨createBookingCtrl_validation hshape hne, hne⟩
  · intro db today id body
    constructor
    · intro huuid
      unfold BookingController.updateBooking
      simp [huuid]
    · intro huuid hbad
      have hne : BookingController.updateErrors body today ≠ [] := by
        unfold BookingController.updateErrors
        rcases hbad with ⟨p, hp, hple⟩ | ⟨s, hs, hs1, hs2⟩ | ⟨s, hs, hsbad⟩ |
          ⟨hds, hdd⟩
        · refine ne_nil_left (ne_nil_left (ne_nil_left ?_))
          rw [if_pos (by rw [hp]; simp [hple])]
          simp
        · refine ne_nil_left (ne_nil_left (ne_nil_right ?_))
          rw [if_pos (by rw [hs]; simp [hs1, hs2])]
          simp
        · refine ne_nil_left (ne_nil_right ?_)
          rw [if_pos (by rw [hs]; simp [hsbad])]
          simp
        · refine ne_nil_right ?_
          rw [if_pos hds]
          exact singleDateErrors_ne_nil hdd
      exact ⟨updateBookingCtrl_validation huuid hne, hne⟩

/-- Witness for `c7_validation_rejects_malformed`: a create request with a
non-UUID `user_id` and an update request with a zero price are both
rejected with validation errors and leave the concrete store unchanged. -/
theorem c7_validation_witness :
    (BookingController.createBooking exDB1 0 0 exCreateBadBody =
      (CtrlResp.validationFailed (BookingController.createErrors exCreateBadBody 0),
       exDB1) ∧
     BookingController.createErrors exCreateBadBody 0 ≠ []) ∧
    (BookingController.updateBooking exDB1 0
        "123e4567-e89b-42d3-a456-426614174000" exUpdateBadBody =
      (CtrlResp.validationFailed (BookingController.updateErrors exUpdateBadBody 0),
       exDB1) ∧
     BookingController.updateErrors exUpdateBadBody 0 ≠ []) := by
  constructor
  · exact c7_validation_rejects_malformed.1 exDB1 0 0 exCreateBadBody
      (Or.inl (by decide))
      (Or.inl ⟨"bad", rfl, by decide, by decide⟩)
  · exact (c7_validation_rejects_malformed.2 exDB1 0
      "123e4567-e89b-42d3-a456-426614174000" exUpdateBadBody).2
      (by decide) (Or.inl ⟨0, rfl, by decide⟩)

/-! ## C1: the capacity invariant -/

/-- Claim C1 fails as stated: starting from an empty store with one room of
capacity 1, the sequential engine sequence book / cancel / book /
`updateBooking({status: "active"})` ends with two active bookings for the
room on 2025-06-01 — the reactivating update performs no availability
check.  (See `exOps1`.) -/
theorem c1_counterexample :
    findRoom (run exDB1 exOps1).rooms "r0" =
      some { id := "r0", total_rooms := some 1 } ∧
    countActive (run exDB1 exOps1).bookings "r0" "2025-06-01" none = 2 := by
  exact ⟨by decide, by decide⟩

theorem countActive_none (l : List Booking) (rid dd : String) :
    countActive l rid dd none = l.countP (bookingMatches rid dd) := by
  refine countP_congr_eq _ _ _ ?_
  intro b _
  simp [exclOk]

theorem countActive_some (l : List Booking) (rid dd e : String) (he : e ≠ "") :
    countActive l rid dd (some e) =
      l.countP (fun b => bookingMatches rid dd b && (b.id != e)) := by
  refine countP_congr_eq _ _ _ ?_
  intro b _
  simp [exclOk, he]

theorem countActive_mkRows (u h r : String) (p : Int) (n : Option String)
    (now : Nat) (rid dd : String) :
    ∀ (f : Nat) (dates : List String),
      countActive (BookingService.mkRows f u h r p n now dates) rid dd none =
        dates.countP (fun d' => r == rid && d' == dd) := by
  intro f dates
  induction dates generalizing f with
  | nil => rfl
  | cons d rest ih =>
    simp only [BookingService.mkRows, countActive_cons, ih (f + 1),
      List.countP_cons]
    congr 1
    simp [bookingMatches, exclOk, BookingService.newBookingRow, Bool.and_assoc]

theorem countP_beq_of_nodup {l : List String} (hnd : l.Nodup) (dd : String) :
    l.countP (fun d' => d' == dd) = if dd ∈ l then 1 else 0 := by
  induction l with
  | nil => simp
  | cons a rest ih =>
    rcases List.nodup_cons.mp hnd with ⟨hna, hrest⟩
    rw [List.countP_cons, ih hrest]
    by_cases had : a = dd
    · subst had
      simp [hna]
    · simp [had, List.mem_cons, Ne.symm had]

/-- Case analysis on `createBooking`: either the store is unchanged or an
availability-guarded row was appended. -/
theorem createBooking_db_cases (db : DB) (u h r d : String) (p : Int)
    (n : Option String) (now : Nat) :
    (BookingService.createBooking db u h r d p n now).2 = db ∨
    (∃ room t, findRoom db.rooms r = some room ∧ room.total_rooms = some t ∧
      countActive db.bookings r d none < t ∧
      (BookingService.createBooking db u h r d p n now).2 =
        { db with
          bookings := db.bookings ++
            [BookingService.newBookingRow (genId db.fresh) u h r d p n now],
          fresh := db.fresh + 1 }) := by
  unfold BookingService.createBooking
  cases hchk : BookingService.checkRoomAvailability db r d none with
  | error e => left; rfl
  | ok a =>
    by_cases hav : a.isAvailable = true
    · right
      obtain ⟨room, hroom, ha⟩ := checkRoomAvailability_ok hchk
      obtain ⟨t, ht, hc⟩ := mkAvail_isAvailable.mp (by rw [ha] at hav; exact hav)
      refine ⟨room, t, hroom, ht, hc, ?_⟩
      simp [hav]
    · left
      rw [Bool.not_eq_true] at hav
      simp [hav]

theorem collectUnavail_nil_avail {db : DB} {r : String} :
    ∀ {dates : List String},
      BookingService.collectUnavail db r dates = Except.ok [] →
      ∀ d ∈ dates, ∃ room t, findRoom db.rooms r = some room ∧
        room.total_rooms = some t ∧ countActive db.bookings r d none < t := by
  intro dates
  induction dates with
  | nil =>
    intro _ d hd
    exact absurd hd (List.not_mem_nil d)
  | cons d0 rest ih =>
    intro hok d hd
    simp only [BookingService.collectUnavail] at hok
    cases hchk : BookingService.checkRoomAvailability db r d0 none with
    | error e =>
      rw [hchk] at hok
      exact absurd hok (by simp)
    | ok a =>
      rw [hchk] at hok
      cases hrest : BookingService.collectUnavail db r rest with
      | error e =>
        rw [hrest] at hok
        exact absurd hok (by simp)
      | ok tail =>
        rw [hrest] at hok
        dsimp only at hok
        have hok' : (if a.isAvailable = true then tail
            else (d0, a.totalRooms, a.currentBookings) :: tail) = [] := by
          injection hok
        by_cases hav : a.isAvailable = true
        · rw [if_pos hav] at hok'
          rcases List.mem_cons.mp hd with rfl | hmem
          · obtain ⟨room, hroom, ha⟩ := checkRoomAvailability_ok hchk
            obtain ⟨t, ht, hc⟩ := mkAvail_isAvailable.mp (by rw [ha] at hav; exact hav)
            exact ⟨room, t, hroom, ht, hc⟩
          · rw [hok'] at hrest
            exact ih hrest d hmem
        · rw [if_neg hav] at hok'
          exact absurd hok' (by simp)

/-- Case analysis on `createMultipleBookings`: either the store is
unchanged or the validation loop certified every date and the rows were
appended. -/
theorem createMultipleBookings_db_cases (db : DB) (u h r : String)
    (dates : List String) (p : Int) (n : Option String) (now : Nat) :
    (BookingService.createMultipleBookings db u h r dates p n now).2 = db ∨
    (BookingService.collectUnavail db r dates = Except.ok [] ∧
      (BookingService.createMultipleBookings db u h r dates p n now).2 =
        { db with
          bookings := db.bookings ++
            BookingService.mkRows db.fresh u h r p n now dates,
          fresh := db.fresh + dates.length }) := by
  unfold BookingService.createMultipleBookings
  by_cases hemp : dates.isEmpty
  · left; rw [if_pos hemp]
  · rw [if_neg hemp]
    cases hcol : BookingService.collectUnavail db r dates with
    | error e => left; rfl
    | ok unavail =>
      by_cases hun : unavail.isEmpty
      · right
        refine ⟨congrArg Except.ok (List.isEmpty_iff.mp hun), ?_⟩
        simp [hun]
      · left
        simp [hun]

/-- Case analysis on `updateBooking`: either the store is unchanged, or the
rows with the target id were rewritten — and in that case either no
room/date was supplied, or the effective room/date passed the
self-excluding availability check. -/
theorem updateBooking_db_cases (db : DB) (id : String)
    (u : BookingService.UpdateFields) :
    (BookingService.updateBooking db id u).2 = db ∨
    ((BookingService.updateBooking db id u).2 =
       { db with bookings := db.bookings.map (BookingService.updateRow id u) } ∧
     ∃ cur, db.bookings.find? (fun b => b.id == id) = some cur ∧
       ((jsTruthyS u.room_id || jsTruthyS u.date) = false ∨
        ∃ room t,
          findRoom db.rooms (jsOrD u.room_id cur.room_id) = some room ∧
          room.total_rooms = some t ∧
          countActive db.bookings (jsOrD u.room_id cur.room_id)
            (jsOrD u.date cur.date) (some id) < t)) := by
  unfold BookingService.updateBooking
  by_cases hsv : BookingService.statusInvalid u = true
  · left; simp [hsv]
  · rw [Bool.not_eq_true] at hsv
    rw [hsv]
    simp only [Bool.false_eq_true, if_false]
    by_cases htr : (jsTruthyS u.room_id || jsTruthyS u.date) = true
    · rw [htr]
      simp only [if_true]
      cases hget : BookingService.getBookingById db id with
      | error e => left; rfl
      | ok cur =>
        dsimp only
        cases hchk : BookingService.checkRoomAvailability db
            (jsOrD u.room_id cur.room_id) (jsOrD u.date cur.date) (some id) with
        | error e => left; rfl
        | ok a =>
          dsimp only
          by_cases hav : a.isAvailable = true
          · rw [hav]
            simp only [Bool.not_true, Bool.false_eq_true, if_false]
            unfold BookingService.applyUpdate
            cases hfind : db.bookings.find? (fun b => b.id == id) with
            | none => left; rfl
            | some cur2 =>
              dsimp only
              right
              refine ⟨rfl, cur2, rfl, Or.inr ?_⟩
              obtain ⟨room, hroom, ha⟩ := checkRoomAvailability_ok hchk
              obtain ⟨t, ht, hc⟩ :=
                mkAvail_isAvailable.mp (by rw [ha] at hav; exact hav)
              have hcur2 : cur2 = cur := by
                unfold BookingService.getBookingById at hget
                rw [hfind] at hget
                simpa using hget
              rw [hcur2]
              exact ⟨room, t, hroom, ht, hc⟩
          · rw [Bool.not_eq_true] at hav
            left
            rw [hav]
            simp
    · rw [Bool.not_eq_true] at htr
      rw [htr]
      simp only [Bool.false_eq_true, if_false]
      unfold BookingService.applyUpdate
      cases hfind : db.bookings.find? (fun b => b.id == id) with
      | none => left; rfl
      | some cur =>
        dsimp only
        right
        exact ⟨rfl, cur, rfl, Or.inl (by simp [htr])⟩

/-- Case analysis on `cancelBooking`. -/
theorem cancelBooking_db_cases (db : DB) (id : String) :
    (BookingService.cancelBooking db id).2 = db ∨
    (BookingService.cancelBooking db id).2 =
      { db with bookings := db.bookings.map (BookingService.cancelRow id) } := by
  unfold BookingService.cancelBooking
  cases hfind : db.bookings.find? (fun b => b.id == id) with
  | none => left; rfl
  | some cur => right; rfl

theorem nodup_ids_split {l1 l2 : List Booking} {cur : Booking}
    (hnd : ((l1 ++ cur :: l2).map Booking.id).Nodup) :
    (∀ x ∈ l1, x.id ≠ cur.id) ∧ (∀ x ∈ l2, x.id ≠ cur.id) := by
  rw [List.map_append, List.map_cons, List.nodup_middle] at hnd
  rcases List.nodup_cons.mp hnd with ⟨hnotin, -⟩
  constructor
  · intro x hx heq
    exact hnotin (List.mem_append.mpr (Or.inl (List.mem_map.mpr ⟨x, hx, heq⟩)))
  · intro x hx heq
    exact hnotin (List.mem_append.mpr (Or.inr (List.mem_map.mpr ⟨x, hx, heq⟩)))

theorem map_row_skip {l : List Booking} {f : Booking → Booking} {id : String}
    (h : ∀ x ∈ l, x.id ≠ id) :
    (l.map fun b => if b.id == id then f b else b) = l := by
  induction l with
  | nil => rfl
  | cons a rest ih =>
    rw [List.map_cons, ih (fun x hx => h x (List.mem_cons_of_mem a hx)),
      if_neg (by simp [h a (List.mem_cons_self a rest)])]

theorem storeWF_map (db : DB) (g : Booking → Booking)
    (hid : ∀ b, (g b).id = b.id) (hwf : StoreWF db) :
    StoreWF { db with bookings := db.bookings.map g } := by
  obtain ⟨h1, h2, h3⟩ := hwf
  refine ⟨h1, ?_, ?_⟩
  · have heq : (db.bookings.map g).map Booking.id = db.bookings.map Booking.id := by
      rw [List.map_map]
      exact List.map_congr_left (fun b _ => hid b)
    dsimp only
    rw [heq]
    exact h2
  · intro b hb
    dsimp only at hb
    rcases List.mem_map.mp hb with ⟨x, hx, rfl⟩
    obtain ⟨k, hk1, hk2⟩ := h3 x hx
    exact ⟨k, hk1, by rw [hid x]; exact hk2⟩

/-- Rewriting rows of one id with a map that never turns an inactive row
into a matching active one preserves well-formedness and the capacity
invariant (covers `cancelBooking` and non-reactivating field updates). -/
theorem wfInv_map (db : DB) (g : Booking → Booking)
    (hid : ∀ b, (g b).id = b.id)
    (hmono : ∀ b rid dd, bookingMatches rid dd (g b) = true →
      bookingMatches rid dd b = true)
    (hwf : StoreWF db) (hinv : CapacityInv db) :
    StoreWF { db with bookings := db.bookings.map g } ∧
    CapacityInv { db with bookings := db.bookings.map g } := by
  refine ⟨storeWF_map db g hid hwf, ?_⟩
  intro room hm t ht dd
  dsimp only at hm ⊢
  rw [countActive_none, List.countP_map]
  calc db.bookings.countP (bookingMatches room.id dd ∘ g)
      ≤ db.bookings.countP (bookingMatches room.id dd) :=
        List.countP_mono_left (fun b _ hb => hmono b room.id dd hb)
    _ = countActive db.bookings room.id dd none := (countActive_none _ _ _).symm
    _ ≤ t := hinv room hm t ht dd

/-- Appending one availability-certified row per distinct date preserves
well-formedness and the capacity invariant. -/
theorem wfInv_insertRows (db : DB) (u h r : String) (p : Int)
    (n : Option String) (now : Nat) (dates : List String)
    (hwf : StoreWF db) (hinv : CapacityInv db) (hnd : dates.Nodup)
    (havail : ∀ d ∈ dates, ∃ room t, findRoom db.rooms r = some room ∧
      room.total_rooms = some t ∧ countActive db.bookings r d none < t) :
    StoreWF { db with
      bookings := db.bookings ++ BookingService.mkRows db.fresh u h r p n now dates,
      fresh := db.fresh + dates.length } ∧
    CapacityInv { db with
      bookings := db.bookings ++ BookingService.mkRows db.fresh u h r p n now dates,
      fresh := db.fresh + dates.length } := by
  obtain ⟨hrnd, hbnd, hgen⟩ := hwf
  constructor
  · refine ⟨hrnd, ?_, ?_⟩
    · dsimp only
      rw [List.map_append, List.nodup_append]
      refine ⟨hbnd, mkRows_ids_nodup u h r p n now db.fresh dates, ?_⟩
      intro x hx hx2
      rcases List.mem_map.mp hx with ⟨b, hb, hab⟩
      rcases List.mem_map.mp hx2 with ⟨b2, hb2, hab2⟩
      obtain ⟨k, hk1, hk2⟩ := hgen b hb
      obtain ⟨-, -, -, -, k2, hk21, hk22, hk23⟩ :=
        mkRows_mem u h r p n now db.fresh dates b2 hb2
      have : genId k = genId k2 := by
        rw [← hk2, ← hk23, hab, hab2]
      have := genId_injective this
      omega
    · intro b hb
      dsimp only at hb ⊢
      rcases List.mem_append.mp hb with hb | hb
      · obtain ⟨k, hk1, hk2⟩ := hgen b hb
        exact ⟨k, by omega, hk2⟩
      · obtain ⟨-, -, -, -, k, hk1, hk2, hk3⟩ :=
          mkRows_mem u h r p n now db.fresh dates b hb
        exact ⟨k, by omega, hk3⟩
  · intro room2 hm t2 ht2 dd
    dsimp only at hm ⊢
    rw [countActive_append, countActive_mkRows]
    by_cases hr : (r == room2.id) = true
    · have hreq : r = room2.id := by simpa using hr
      have hcp : dates.countP (fun d' => r == room2.id && d' == dd) =
          dates.countP (fun d' => d' == dd) := by
        refine countP_congr_eq _ _ _ ?_
        intro d' _
        rw [hr, Bool.true_and]
      rw [hcp, countP_beq_of_nodup hnd]
      by_cases hmem : dd ∈ dates
      · rw [if_pos hmem]
        obtain ⟨room, t, hroom, ht, hc⟩ := havail dd hmem
        obtain ⟨hroomMem, hroomId⟩ := findRoom_mem hroom
        have hreq2 : room2 = room :=
          room_eq_of_nodup hrnd hm hroomMem (by rw [← hreq, hroomId])
        have ht2' : t2 = t := by
          rw [hreq2] at ht2
          rw [ht2] at ht
          exact Option.some.inj ht
        rw [← hreq]
        omega
      · rw [if_neg hmem]
        have := hinv room2 hm t2 ht2 dd
        omega
    · rw [Bool.not_eq_true] at hr
      have hcp : dates.countP (fun d' => r == room2.id && d' == dd) = 0 := by
        rw [List.countP_eq_zero]
        intro d' _
        simp [hr]
      rw [hcp]
      have := hinv room2 hm t2 ht2 dd
      omega

/-- Rewriting the one row with the target id to its availability-checked
room/date (status not set to `active`) preserves well-formedness and the
capacity invariant. -/
theorem wfInv_update_checked (db : DB) (id : String)
    (u : BookingService.UpdateFields)
    (hwf : StoreWF db) (hinv : CapacityInv db)
    (cur : Booking) (hfind : db.bookings.find? (fun b => b.id == id) = some cur)
    (room : Room) (t : Nat)
    (hroom : findRoom db.rooms (u.room_id.getD cur.room_id) = some room)
    (ht : room.total_rooms = some t)
    (hc : countActive db.bookings (u.room_id.getD cur.room_id)
      (u.date.getD cur.date) (some id) < t) :
    StoreWF { db with bookings := db.bookings.map (BookingService.updateRow id u) } ∧
    CapacityInv { db with bookings := db.bookings.map (BookingService.updateRow id u) } := by
  have hidrow : ∀ b, (BookingService.updateRow id u b).id = b.id := by
    intro b
    unfold BookingService.updateRow
    by_cases hb : (b.id == id) = true <;> simp [hb, BookingService.applyFields]
  refine ⟨storeWF_map db _ hidrow hwf, ?_⟩
  obtain ⟨hrnd, hbnd, hgen⟩ := hwf
  have hcmem : cur ∈ db.bookings := List.mem_of_find?_eq_some hfind
  have hcid : cur.id = id := by simpa using List.find?_some hfind
  have hidne : id ≠ "" := by
    obtain ⟨k, -, hk⟩ := hgen cur hcmem
    rw [← hcid, hk]
    exact genId_ne_empty k
  obtain ⟨l1, l2, hsplit⟩ := List.append_of_mem hcmem
  have hl12 : (∀ x ∈ l1, x.id ≠ cur.id) ∧ (∀ x ∈ l2, x.id ≠ cur.id) :=
    nodup_ids_split (by rw [← hsplit]; exact hbnd)
  obtain ⟨hl1, hl2⟩ := hl12
  have hl1' : ∀ x ∈ l1, x.id ≠ id := fun x hx => hcid ▸ hl1 x hx
  have hl2' : ∀ x ∈ l2, x.id ≠ id := fun x hx => hcid ▸ hl2 x hx
  have hmap : db.bookings.map (BookingService.updateRow id u) =
      l1 ++ BookingService.applyFields u cur :: l2 := by
    rw [hsplit, List.map_append, List.map_cons]
    have e1 : l1.map (BookingService.updateRow id u) = l1 := map_row_skip hl1'
    have e2 : l2.map (BookingService.updateRow id u) = l2 := map_row_skip hl2'
    have e3 : BookingService.updateRow id u cur = BookingService.applyFields u cur := by
      unfold BookingService.updateRow
      rw [if_pos (by simp [hcid])]
    rw [e1, e2, e3]
  -- the exclusion count decomposes over the split with `cur` excluded
  have holdex : countActive db.bookings (u.room_id.getD cur.room_id)
      (u.date.getD cur.date) (some id) =
      l1.countP (bookingMatches (u.room_id.getD cur.room_id) (u.date.getD cur.date)) +
      l2.countP (bookingMatches (u.room_id.getD cur.room_id) (u.date.getD cur.date)) := by
    rw [countActive_some _ _ _ _ hidne, hsplit, List.countP_append, List.countP_cons]
    have hqcur : (bookingMatches (u.room_id.getD cur.room_id) (u.date.getD cur.date) cur &&
        (cur.id != id)) = false := by
      simp [hcid]
    rw [hqcur]
    have e1 : l1.countP (fun b =>
        bookingMatches (u.room_id.getD cur.room_id) (u.date.getD cur.date) b &&
          (b.id != id)) =
        l1.countP (bookingMatches (u.room_id.getD cur.room_id) (u.date.getD cur.date)) := by
      refine countP_congr_eq _ _ _ ?_
      intro x hx
      simp [hl1' x hx]
    have e2 : l2.countP (fun b =>
        bookingMatches (u.room_id.getD cur.room_id) (u.date.getD cur.date) b &&
          (b.id != id)) =
        l2.countP (bookingMatches (u.room_id.getD cur.room_id) (u.date.getD cur.date)) := by
      refine countP_congr_eq _ _ _ ?_
      intro x hx
      simp [hl2' x hx]
    rw [e1, e2]
    simp
  intro room2 hm t2 ht2 dd
  dsimp only at hm ⊢
  rw [countActive_none, hmap, List.countP_append, List.countP_cons]
  by_cases hpair : room2.id = u.room_id.getD cur.room_id ∧ dd = u.date.getD cur.date
  · obtain ⟨hp1, hp2⟩ := hpair
    obtain ⟨hroomMem, hroomId⟩ := findRoom_mem hroom
    have hreq2 : room2 = room :=
      room_eq_of_nodup hrnd hm hroomMem (by rw [hp1, hroomId])
    have ht2' : t2 = t := by
      rw [hreq2] at ht2
      rw [ht2] at ht
      exact Option.some.inj ht
    rw [hp1, hp2] at *
    have hite : (if (bookingMatches (u.room_id.getD cur.room_id)
        (u.date.getD cur.date) (BookingService.applyFields u cur)) = true
        then 1 else 0) ≤ 1 := by
      split <;> omega
    omega
  · have hnb : bookingMatches room2.id dd (BookingService.applyFields u cur) = false := by
      unfold bookingMatches
      by_cases hx : room2.id = u.room_id.getD cur.room_id
      · have hdd : dd ≠ u.date.getD cur.date := fun hdd => hpair ⟨hx, hdd⟩
        have hdt : ((BookingService.applyFields u cur).date == dd) = false := by
          simp only [BookingService.applyFields]
          rw [beq_eq_false_iff_ne]
          exact fun hcontra => hdd hcontra.symm
        simp [hdt]
      · have hrm : ((BookingService.applyFields u cur).room_id == room2.id) = false := by
          simp only [BookingService.applyFields]
          rw [beq_eq_false_iff_ne]
          exact fun hcontra => hx hcontra.symm
        simp [hrm]
    rw [hnb]
    have hold : countActive db.bookings room2.id dd none =
        l1.countP (bookingMatches room2.id dd) +
        (l2.countP (bookingMatches room2.id dd) +
          if bookingMatches room2.id dd cur = true then 1 else 0) := by
      rw [countActive_none, hsplit, List.countP_append, List.countP_cons]
    have hbound := hinv room2 hm t2 ht2 dd
    rw [hold] at hbound
    have hite2 : (0 : Nat) ≤ if bookingMatches room2.id dd cur = true then 1 else 0 := by
      omega
    simp only [Bool.false_eq_true, if_false]
    omega

/-- One engine call satisfying the §4 preconditions preserves
well-formedness and the capacity invariant. -/
theorem stepOp_preserves (db : DB) (op : Op) (hok : OkOp op)
    (hwf : StoreWF db) (hinv : CapacityInv db) :
    StoreWF (stepOp db op) ∧ CapacityInv (stepOp db op) := by
  cases op with
  | create u h r d p n now =>
    simp only [stepOp]
    rcases createBooking_db_cases db u h r d p n now with heq |
      ⟨room, t, hroom, ht, hc, heq⟩
    · rw [heq]; exact ⟨hwf, hinv⟩
    · rw [heq]
      exact wfInv_insertRows db u h r p n now [d] hwf hinv (by simp)
        (by intro d' hd'
            rcases List.mem_singleton.mp hd' with rfl
            exact ⟨room, t, hroom, ht, hc⟩)
  | createMulti u h r ds p n now =>
    simp only [stepOp]
    rcases createMultipleBookings_db_cases db u h r ds p n now with heq |
      ⟨hcol, heq⟩
    · rw [heq]; exact ⟨hwf, hinv⟩
    · rw [heq]
      exact wfInv_insertRows db u h r p n now ds hwf hinv hok
        (collectUnavail_nil_avail hcol)
  | update id u =>
    simp only [stepOp]
    obtain ⟨hsa, hwr, hwd⟩ := hok
    rcases updateBooking_db_cases db id u with heq | ⟨heq, cur, hfind, hcase⟩
    · rw [heq]; exact ⟨hwf, hinv⟩
    · rw [heq]
      rcases hcase with hfalse | ⟨room, t, hroom, ht, hc⟩
      · have hrn : u.room_id = none := by
          cases hr : u.room_id with
          | none => rfl
          | some s =>
            have hne := hwr s hr
            rw [hr] at hfalse
            simp [jsTruthyS, hne] at hfalse
        have hdn : u.date = none := by
          cases hd : u.date with
          | none => rfl
          | some s =>
            have hne := hwd s hd
            rw [hd] at hfalse
            simp [jsTruthyS, hne] at hfalse
        refine wfInv_map db (BookingService.updateRow id u) ?_ ?_ hwf hinv
        · intro b
          unfold BookingService.updateRow
          by_cases hb : (b.id == id) = true <;>
            simp [hb, BookingService.applyFields]
        · intro b rid dd hmatch
          unfold BookingService.updateRow at hmatch
          by_cases hb : (b.id == id) = true
          · rw [if_pos hb] at hmatch
            cases hst : u.status with
            | none =>
              unfold bookingMatches at hmatch ⊢
              simpa [BookingService.applyFields, hrn, hdn, hst] using hmatch
            | some st =>
              have hstne : ¬ st = "active" := fun hcontra => hsa (by rw [hst, hcontra])
              exfalso
              unfold bookingMatches at hmatch
              simp [BookingService.applyFields, hrn, hdn, hst, hstne] at hmatch
          · rw [if_neg hb] at hmatch
            exact hmatch
      · have her : jsOrD u.room_id cur.room_id = u.room_id.getD cur.room_id :=
          jsOrD_eq_getD hwr _
        have hed : jsOrD u.date cur.date = u.date.getD cur.date :=
          jsOrD_eq_getD hwd _
        rw [her] at hroom hc
        rw [hed] at hc
        exact wfInv_update_checked db id u hwf hinv cur hfind room t hroom ht hc
  | cancel id =>
    simp only [stepOp]
    rcases cancelBooking_db_cases db id with heq | heq
    · rw [heq]; exact ⟨hwf, hinv⟩
    · rw [heq]
      refine wfInv_map db (BookingService.cancelRow id) ?_ ?_ hwf hinv
      · intro b
        unfold BookingService.cancelRow
        by_cases hb : (b.id == id) = true <;> simp [hb]
      · intro b rid dd hmatch
        unfold BookingService.cancelRow at hmatch
        by_cases hb : (b.id == id) = true
        · rw [if_pos hb] at hmatch
          exfalso
          unfold bookingMatches at hmatch
          simp at hmatch
        · rw [if_neg hb] at hmatch
          exact hmatch

/-- Sequential executions preserve well-formedness and the capacity
invariant. -/
theorem run_preserves (ops : List Op) :
    ∀ (db : DB), StoreWF db → CapacityInv db → (∀ op ∈ ops, OkOp op) →
      StoreWF (run db ops) ∧ CapacityInv (run db ops) := by
  induction ops with
  | nil =>
    intro db hwf hinv _
    exact ⟨hwf, hinv⟩
  | cons op rest ih =>
    intro db hwf hinv hops
    have h1 := stepOp_preserves db op (hops op (List.mem_cons_self op rest)) hwf hinv
    exact ih (stepOp db op) h1.1 h1.2 (fun o ho => hops o (List.mem_cons_of_mem op ho))

/-- Claim C1, amended: starting from a well-formed store satisfying the
capacity invariant, any sequential sequence of engine calls keeps
`count(active bookings of room r on date d) ≤ total_rooms(r)` for every
configured room — provided (per §4's own preconditions) each multi-date
request has pairwise-distinct dates and each update's supplied room/date
is a well-formed non-empty string, and provided (the amendment the
counterexample forces) no `updateBooking` call sets `status` to `active`:
such a reactivating update bypasses the availability check and can exceed
capacity (`c1_counterexample`). -/
theorem c1_capacity_invariant_amended (db : DB) (ops : List Op)
    (hwf : StoreWF db) (hinv : CapacityInv db)
    (hops : ∀ op ∈ ops, OkOp op)
    (_hpos : ∀ room ∈ db.rooms, ∀ t, room.total_rooms = some t → 0 < t) :
    CapacityInv (run db ops) :=
  (run_preserves ops db hwf hinv hops).2

/-- Witness for `c1_capacity_invariant_amended` on the concrete store
`exDB1` and the compliant call sequence `exOpsOk`. -/
theorem c1_capacity_invariant_witness : CapacityInv (run exDB1 exOpsOk) :=
  c1_capacity_invariant_amended exDB1 exOpsOk
    ⟨by decide, by decide, by intro b hb; exact absurd hb (List.not_mem_nil b)⟩
    (by intro room hm t ht d
        simp [exDB1, countActive])
    (by intro op hop
        fin_cases hop <;> trivial)
    (by intro room hm t ht
        simp only [exDB1, List.mem_singleton] at hm
        subst hm
        have := Option.some.inj ht
        omega)
